import Mathlib

/-!
# Verification of the AIClient-2-API provider pool runtime and Kiro cache estimator

Shallow embedding of:
* `ProviderPoolManager` (source: `test-health-check-recovery.js`, second embedded
  document: the `provider-pool-manager` module) — credential selection, health
  lifecycle, fallback, sticky sessions;
* `KiroApiService.callApi` / `_markCredentialUnhealthy` and the
  `KiroCacheEstimator` (source: `src/providers/claude/claude-kiro.js`).

Modelling conventions, used consistently below:
* JS timestamps (both `Date.now()` numbers and ISO-8601 strings, which the code
  converts back with `new Date(s).getTime()`) are embedded as `Nat` epoch
  milliseconds; the current wall clock is an explicit `now : Nat` argument.
* A JS string field that the code tests for truthiness is embedded as `String`
  with `""` playing the role of `undefined`/`null`/`""` (all falsy), or as
  `Option String` where the code distinguishes presence; each structure notes
  its choice.
* The pool entry `{ config, uuid }` built by `initializeProviderStatus` keeps
  `uuid` only as a copy of `config.uuid` and neither is ever re-assigned, so the
  entry is collapsed into the single `Cred` structure.
* State mutation becomes explicit state passing: every method of the manager is
  a function `PoolState → ... → PoolState` (returning extra results as pairs).
* `_debouncedSave(providerType)` arms a timer and records the type in
  `pendingSaves`; the timer itself is I/O, so the embedding records only the
  `pendingSaves` set (a save is "scheduled" iff the type was added).
-/

/-- A credential ("provider instance") as normalised by
`initializeProviderStatus`.  `uuid = ""` stands for a missing/empty uuid
(falsy in JS).  `lastUsed`, `lastErrorTime`, `lastHealthCheckTime` are epoch
milliseconds (`none` = JS `null`). -/
structure Cred where
  uuid : String
  isHealthy : Bool
  isDisabled : Bool
  lastUsed : Option Nat
  usageCount : Nat
  errorCount : Nat
  lastErrorTime : Option Nat
  lastErrorMessage : Option String
  lastHealthCheckTime : Option Nat
  lastHealthCheckModel : Option String
  notSupportedModels : Option (List String)
  checkHealth : Bool
  customName : Option String
  deriving Repr, DecidableEq

/-- A credential config as it arrives in `providerPools` (e.g. loaded from
`configs/provider_pools.json`) before `initializeProviderStatus` fills in the
defaults.  `none` plays the role of the field being `undefined`. -/
structure RawCred where
  uuid : String
  isHealthy : Option Bool
  isDisabled : Option Bool
  lastUsed : Option Nat
  usageCount : Option Nat
  errorCount : Option Nat
  lastErrorTime : Option Nat
  lastHealthCheckTime : Option Nat
  lastHealthCheckModel : Option String
  lastErrorMessage : Option String
  notSupportedModels : Option (List String)
  checkHealth : Bool
  customName : Option String
  deriving Repr, DecidableEq

/-- `initializeProviderStatus`, per-credential part: apply the
`x !== undefined ? x : default` / `x || null` normalisations.  (The
`instanceof Date` branch for `lastErrorTime` merely converts a Date to its ISO
string; both are the same epoch value here.) -/
def initCred (r : RawCred) : Cred :=
  { uuid := r.uuid
    isHealthy := r.isHealthy.getD true
    isDisabled := r.isDisabled.getD false
    lastUsed := r.lastUsed
    usageCount := r.usageCount.getD 0
    errorCount := r.errorCount.getD 0
    lastErrorTime := r.lastErrorTime
    lastHealthCheckTime := r.lastHealthCheckTime
    lastHealthCheckModel := r.lastHealthCheckModel
    lastErrorMessage := r.lastErrorMessage
    notSupportedModels := r.notSupportedModels
    checkHealth := r.checkHealth
    customName := r.customName }

/-- A sticky session table entry. -/
structure Session where
  providerType : String
  providerUuid : String
  createdAt : Nat
  lastAccessedAt : Nat
  requestCount : Nat
  deriving Repr, DecidableEq

/-- The mutable state of a `ProviderPoolManager`.  `pools` is
`this.providerStatus` (a JS object: association list with unique keys, keyed by
provider type), `stickyMap` is `this.stickySessionMap` (a JS `Map`: association
list in insertion order), `pendingSaves` is `this.pendingSaves`. -/
structure PoolState where
  pools : List (String × List Cred)
  maxErrorCount : Nat
  stickyEnabled : Bool
  stickyTtlMs : Nat
  stickyMaxSessions : Nat
  stickyMap : List (String × Session)
  pendingSaves : List String
  fallbackChain : List (String × List String)
  modelFallbackMapping : List (String × (String × String))
  deriving Repr, DecidableEq

/-- `this.providerStatus[providerType] || []`. -/
def poolOf (s : PoolState) (providerType : String) : List Cred :=
  ((s.pools.find? (fun p => p.1 = providerType)).map (·.2)).getD []

/-- Whether `providerType` is a key of `this.providerStatus`. -/
def hasPool (s : PoolState) (providerType : String) : Bool :=
  (s.pools.find? (fun p => p.1 = providerType)).isSome

/-- Replace the credential list stored under `providerType` (no-op when the key
is absent; mutating call sites only reach this with an existing key). -/
def setPool (s : PoolState) (providerType : String) (creds : List Cred) : PoolState :=
  { s with pools := s.pools.map (fun p => if p.1 = providerType then (p.1, creds) else p) }

/-- `_findProvider(providerType, uuid)`: `null` on falsy arguments, else the
first pool entry with `p.uuid === uuid`. -/
def findProvider (s : PoolState) (providerType uuid : String) : Option Cred :=
  if providerType = "" ∨ uuid = "" then none
  else (poolOf s providerType).find? (fun c => c.uuid = uuid)

/-- Update the first list element satisfying `p` (the JS object mutation
through the reference that `find` returned). -/
def updateFirst (p : Cred → Bool) (f : Cred → Cred) : List Cred → List Cred
  | [] => []
  | c :: cs => if p c then f c :: cs else c :: updateFirst p f cs

/-- Update (in place) the first credential of pool `providerType` whose uuid is
`uuid` — the JS object mutation through the reference `_findProvider` returned. -/
def updateCred (s : PoolState) (providerType uuid : String) (f : Cred → Cred) : PoolState :=
  setPool s providerType (updateFirst (fun c => c.uuid = uuid) f (poolOf s providerType))

/-- `_debouncedSave(providerType)`: remember the type as pending (the 1 s timer
is I/O and not part of the state model). -/
def debouncedSave (s : PoolState) (providerType : String) : PoolState :=
  { s with pendingSaves :=
      if s.pendingSaves.contains providerType then s.pendingSaves
      else s.pendingSaves ++ [providerType] }

/-- The error window of `markProviderUnhealthy`: 10 000 ms. -/
def errorWindowMs : Nat := 10000

/-- `markProviderUnhealthy(providerType, providerConfig, errorMessage)`.
`cfgUuid` is `providerConfig.uuid` (`""` = falsy). -/
def markProviderUnhealthy (s : PoolState) (now : Nat) (providerType cfgUuid : String)
    (errorMessage : Option String) : PoolState :=
  if cfgUuid = "" then s
  else match findProvider s providerType cfgUuid with
    | none => s
    | some c =>
      let lastErr := match c.lastErrorTime with | some t => t | none => 0
      let newCount := if errorWindowMs < now - lastErr then 1 else c.errorCount + 1
      let c := { c with
        errorCount := newCount
        lastErrorTime := some now
        lastUsed := some now
        lastErrorMessage := match errorMessage with
          | some m => some m
          | none => c.lastErrorMessage }
      let c := if s.maxErrorCount ≤ c.errorCount then { c with isHealthy := false } else c
      debouncedSave (updateCred s providerType cfgUuid (fun _ => c)) providerType

/-- `markProviderUnhealthyImmediately(providerType, providerConfig, errorMessage)`. -/
def markProviderUnhealthyImmediately (s : PoolState) (now : Nat) (providerType cfgUuid : String)
    (errorMessage : Option String) : PoolState :=
  if cfgUuid = "" then s
  else match findProvider s providerType cfgUuid with
    | none => s
    | some c =>
      let c := { c with
        isHealthy := false
        errorCount := s.maxErrorCount
        lastErrorTime := some now
        lastUsed := some now
        lastErrorMessage := match errorMessage with
          | some m => some m
          | none => c.lastErrorMessage }
      debouncedSave (updateCred s providerType cfgUuid (fun _ => c)) providerType

/-- `markProviderHealthy(providerType, providerConfig, resetUsageCount, healthCheckModel)`. -/
def markProviderHealthy (s : PoolState) (now : Nat) (providerType cfgUuid : String)
    (resetUsageCount : Bool) (healthCheckModel : Option String) : PoolState :=
  if cfgUuid = "" then s
  else match findProvider s providerType cfgUuid with
    | none => s
    | some c =>
      let c := { c with
        isHealthy := true
        errorCount := 0
        lastErrorTime := none
        lastErrorMessage := none
        lastHealthCheckTime := some now
        lastHealthCheckModel := match healthCheckModel with
          | some m => some m
          | none => c.lastHealthCheckModel }
      let c := if resetUsageCount then { c with usageCount := 0 }
        else { c with usageCount := c.usageCount + 1, lastUsed := some now }
      debouncedSave (updateCred s providerType cfgUuid (fun _ => c)) providerType

/-- `resetProviderCounters(providerType, providerConfig)`. -/
def resetProviderCounters (s : PoolState) (providerType cfgUuid : String) : PoolState :=
  if cfgUuid = "" then s
  else match findProvider s providerType cfgUuid with
    | none => s
    | some _ =>
      debouncedSave
        (updateCred s providerType cfgUuid (fun c => { c with errorCount := 0, usageCount := 0 }))
        providerType

/-- `disableProvider(providerType, providerConfig)`. -/
def disableProvider (s : PoolState) (providerType cfgUuid : String) : PoolState :=
  if cfgUuid = "" then s
  else match findProvider s providerType cfgUuid with
    | none => s
    | some _ =>
      debouncedSave
        (updateCred s providerType cfgUuid (fun c => { c with isDisabled := true }))
        providerType

/-- `enableProvider(providerType, providerConfig)`. -/
def enableProvider (s : PoolState) (providerType cfgUuid : String) : PoolState :=
  if cfgUuid = "" then s
  else match findProvider s providerType cfgUuid with
    | none => s
    | some _ =>
      debouncedSave
        (updateCred s providerType cfgUuid (fun c => { c with isDisabled := false }))
        providerType

/-! ## Sticky sessions -/

/-- `this.stickySessionMap.get(sessionId)`. -/
def stickyGet (s : PoolState) (sessionId : String) : Option Session :=
  ((s.stickyMap.find? (fun e => e.1 = sessionId)).map (·.2))

/-- `this.stickySessionMap.delete(sessionId)` (keys are unique, so a filter). -/
def stickyDelete (s : PoolState) (sessionId : String) : PoolState :=
  { s with stickyMap := s.stickyMap.filter (fun e => ¬ e.1 = sessionId) }

/-- `this.stickySessionMap.set(sessionId, sess)`: replace in place when the key
exists (JS `Map` keeps the original insertion position), else append. -/
def stickySet (s : PoolState) (sessionId : String) (sess : Session) : PoolState :=
  if (s.stickyMap.find? (fun e => e.1 = sessionId)).isSome then
    { s with stickyMap := s.stickyMap.map (fun e => if e.1 = sessionId then (e.1, sess) else e) }
  else
    { s with stickyMap := s.stickyMap ++ [(sessionId, sess)] }

/-- Key of the entry `_evictOldestSessions` removes next: first entry (in Map
insertion order) with minimal `lastAccessedAt`.  This matches the JS stable
ascending sort by `lastAccessedAt` followed by deleting the head. -/
def firstMinByAccess (l : List (String × Session)) : Option String :=
  (l.foldl (fun acc e => match acc with
    | none => some e
    | some b => if e.2.lastAccessedAt < b.2.lastAccessedAt then some e else acc) none).map (·.1)

/-- One deletion step of `_evictOldestSessions`. -/
def evictOnce (s : PoolState) : PoolState :=
  match firstMinByAccess s.stickyMap with
  | none => s
  | some k => stickyDelete s k

/-- `_evictOldestSessions(count)`: the JS sorts the entries by
`lastAccessedAt` ascending (stably) and deletes the first
`min(count, sessions.length)` keys; deleting the first-minimal entry `count`
times removes exactly the same keys. -/
def evictOldestSessions (s : PoolState) : Nat → PoolState
  | 0 => s
  | n + 1 => evictOldestSessions (evictOnce s) n

/-- `_createStickySession(sessionId, providerType, providerUuid)`.  The eviction
batch `Math.floor(this.stickySessionConfig.maxSessions * 0.1)` is embedded as
`maxSessions / 10` (for these magnitudes the double computation
`floor(n * 0.1)` agrees with integer division by 10). -/
def createStickySession (s : PoolState) (now : Nat) (sessionId providerType providerUuid : String) :
    PoolState :=
  let s := if s.stickyMaxSessions ≤ s.stickyMap.length then
      evictOldestSessions s (s.stickyMaxSessions / 10)
    else s
  stickySet s sessionId
    { providerType := providerType, providerUuid := providerUuid,
      createdAt := now, lastAccessedAt := now, requestCount := 1 }

/-- `_updateStickySessionAccess(sessionId)`. -/
def updateStickySessionAccess (s : PoolState) (now : Nat) (sessionId : String) : PoolState :=
  match stickyGet s sessionId with
  | none => s
  | some sess =>
    stickySet s sessionId { sess with lastAccessedAt := now, requestCount := sess.requestCount + 1 }

/-- `_trySelectFromStickySession(providerType, requestedModel, sessionId)`:
returns the (possibly session-dropping) new state and the bound credential's
config on a hit. -/
def trySelectFromStickySession (s : PoolState) (now : Nat)
    (providerType : String) (requestedModel : Option String) (sessionId : String) :
    PoolState × Option Cred :=
  match stickyGet s sessionId with
  | none => (s, none)
  | some session =>
    if s.stickyTtlMs < now - session.lastAccessedAt then
      (stickyDelete s sessionId, none)
    else if ¬ session.providerType = providerType then
      (s, none)
    else match findProvider s providerType session.providerUuid with
      | none => (stickyDelete s sessionId, none)
      | some provider =>
        if ¬ provider.isHealthy ∨ provider.isDisabled then
          (stickyDelete s sessionId, none)
        else match requestedModel with
          | some m =>
            if (provider.notSupportedModels.getD []).contains m then (s, none)
            else (s, some provider)
          | none => (s, some provider)

/-! ## Selection -/

/-- The LRU sort key: `lastUsed` as epoch ms with `null` as `0`, then
`usageCount`. -/
def credKey (c : Cred) : Nat × Nat := (c.lastUsed.getD 0, c.usageCount)

/-- Strict lexicographic comparison of sort keys (the JS comparator returns a
negative number exactly in this case). -/
def keyLt (a b : Nat × Nat) : Bool := a.1 < b.1 ∨ (a.1 = b.1 ∧ a.2 < b.2)

/-- One comparison step of the minimum scan: keep the current best unless the
next element's key is strictly smaller. -/
def pickStep (acc : Option (Nat × Cred)) (e : Nat × Cred) : Option (Nat × Cred) :=
  match acc with
  | none => some e
  | some b => if keyLt (credKey e.2) (credKey b.2) then some e else acc

/-- `candidates.sort(cmp)[0]` for the stable JS sort: the first element (in
original order) whose key is minimal, together with its index in the unfiltered
pool (the identity of the mutated object). -/
def pickFirstMin (l : List (Nat × Cred)) : Option (Nat × Cred) :=
  l.foldl pickStep none

/-- The `isHealthy && !isDisabled` filter of `selectProvider`. -/
def credEligible (c : Cred) : Bool := c.isHealthy ∧ ¬ c.isDisabled

/-- The model filter of `selectProvider`: a provider with no
`notSupportedModels` array supports every model. -/
def credSupportsModel (c : Cred) (requestedModel : Option String) : Bool :=
  match requestedModel with
  | none => true
  | some m => match c.notSupportedModels with
    | none => true
    | some l => ¬ l.contains m

/-- The eligible candidates of the LRU step, paired with their positions in the
pool. -/
def lruCandidates (s : PoolState) (providerType : String) (requestedModel : Option String) :
    List (Nat × Cred) :=
  (poolOf s providerType).enum.filter
    (fun e => credEligible e.2 ∧ credSupportsModel e.2 requestedModel)

/-- Replace the credential at position `i` of pool `providerType` (JS object
mutation through the array element reference). -/
def setCredAt (s : PoolState) (providerType : String) (i : Nat) (c : Cred) : PoolState :=
  setPool s providerType ((poolOf s providerType).set i c)

/-- The sticky-binding step after an LRU pick: record `sessionId → selected`
when stickiness is enabled and this is not a fallback selection. -/
def lruStickyBind (s : PoolState) (now : Nat) (providerType : String)
    (sessionId : Option String) (isFromFallback : Bool) (selectedUuid : String) : PoolState :=
  match sessionId with
  | some sid =>
    if s.stickyEnabled ∧ ¬ isFromFallback then
      createStickySession s now sid providerType selectedUuid
    else s
  | none => s

/-- The LRU part of `selectProvider` (after the sticky-session block). -/
def lruSelect (s : PoolState) (now : Nat) (providerType : String)
    (requestedModel : Option String) (sessionId : Option String)
    (skipUsageCount isFromFallback : Bool) : PoolState × Option Cred :=
  match pickFirstMin (lruCandidates s providerType requestedModel) with
  | none => (s, none)
  | some (i, selected) =>
    let s := lruStickyBind s now providerType sessionId isFromFallback selected.uuid
    if skipUsageCount then (s, some selected)
    else
      let selected := { selected with lastUsed := some now, usageCount := selected.usageCount + 1 }
      (debouncedSave (setCredAt s providerType i selected) providerType, some selected)

/-- `selectProvider(providerType, requestedModel, { sessionId, skipUsageCount,
isFromFallback })`.  Returns the new state and the selected credential's config
(as it is after the usage-count mutation). -/
def selectProvider (s : PoolState) (now : Nat) (providerType : String)
    (requestedModel : Option String) (sessionId : Option String)
    (skipUsageCount isFromFallback : Bool) : PoolState × Option Cred :=
  if providerType = "" then (s, none)
  else
    match (if s.stickyEnabled then sessionId else none) with
    | some sid =>
      let s1 := (trySelectFromStickySession s now providerType requestedModel sid).1
      match (trySelectFromStickySession s now providerType requestedModel sid).2 with
      | some cfg =>
        let s2 := updateStickySessionAccess s1 now sid
        if skipUsageCount then (s2, some cfg)
        else
          let cfg := { cfg with lastUsed := some now, usageCount := cfg.usageCount + 1 }
          (debouncedSave (updateCred s2 providerType cfg.uuid (fun _ => cfg)) providerType,
           some cfg)
      | none => lruSelect s1 now providerType requestedModel sessionId skipUsageCount isFromFallback
    | none => lruSelect s now providerType requestedModel sessionId skipUsageCount isFromFallback

/-! ## Fallback selection -/

/-- Modelled from the spec: `getProtocolPrefix` lives in `src/utils/common.js`,
which is not part of the provided sources; §4.1 describes it as the protocol
prefix "derived from the type name", i.e. the leading segment of the hyphenated
provider-type tag (`claude-kiro-oauth` ↦ `claude`, `openai-custom` ↦ `openai`). -/
def protocolPrefixOf (providerType : String) : String :=
  String.mk (providerType.data.takeWhile (fun ch => ¬ ch = '-'))

/-- `this.fallbackChain[providerType] || []`. -/
def chainOf (s : PoolState) (providerType : String) : List String :=
  ((s.fallbackChain.find? (fun e => e.1 = providerType)).map (·.2)).getD []

/-- `this.modelFallbackMapping[requestedModel]` as `(targetProviderType, targetModel)`. -/
def mappingOf (s : PoolState) (model : String) : Option (String × String) :=
  (s.modelFallbackMapping.find? (fun e => e.1 = model)).map (·.2)

/-- The result object of `selectProviderWithFallback`.  `actualModel` is present
exactly on the model-mapping paths (the chain paths return no such field). -/
structure FallbackResult where
  config : Cred
  actualProviderType : String
  isFallback : Bool
  actualModel : Option String
  deriving Repr, DecidableEq

/-- Tier-1 loop of `selectProviderWithFallback` over `typesToTry`, threading the
pool state (a failed `selectProvider` may still have dropped a sticky binding)
and the `triedTypes` set.  `providerModels` stands for the external
`getProviderModels` module (`src/providers/provider-models.js`, not included in
src/): per the spec, the model catalogue of each provider type. -/
def fallbackTier1 (providerModels : String → List String) (s : PoolState) (now : Nat)
    (primaryType : String) (requestedModel : Option String) (sessionId : Option String)
    (skipUsageCount : Bool) (tried : List String) :
    List String → PoolState × Option FallbackResult
  | [] => (s, none)
  | currentType :: rest =>
    if tried.contains currentType then
      fallbackTier1 providerModels s now primaryType requestedModel sessionId skipUsageCount
        tried rest
    else
      let tried := currentType :: tried
      if (poolOf s currentType).isEmpty then
        fallbackTier1 providerModels s now primaryType requestedModel sessionId skipUsageCount
          tried rest
      else
        let skipByModelCheck : Bool :=
          match requestedModel with
          | some m =>
            ¬ currentType = primaryType ∧
              (¬ protocolPrefixOf primaryType = protocolPrefixOf currentType ∨
                (¬ (providerModels currentType).isEmpty ∧
                  ¬ (providerModels currentType).contains m))
          | none => false
        if skipByModelCheck then
          fallbackTier1 providerModels s now primaryType requestedModel sessionId skipUsageCount
            tried rest
        else
          match (selectProvider s now currentType requestedModel sessionId skipUsageCount
              (¬ currentType = primaryType)).2 with
          | some cfg =>
            ((selectProvider s now currentType requestedModel sessionId skipUsageCount
                (¬ currentType = primaryType)).1,
             some { config := cfg, actualProviderType := currentType,
                    isFallback := ¬ currentType = primaryType, actualModel := none })
          | none =>
            fallbackTier1 providerModels
              (selectProvider s now currentType requestedModel sessionId skipUsageCount
                (¬ currentType = primaryType)).1
              now primaryType requestedModel sessionId skipUsageCount tried rest

/-- The chain walk inside tier 2 (`targetFallbackTypes` loop). -/
def fallbackTier2Chain (providerModels : String → List String) (s : PoolState) (now : Nat)
    (targetProviderType targetModel : String) (sessionId : Option String)
    (skipUsageCount : Bool) : List String → PoolState × Option FallbackResult
  | [] => (s, none)
  | fallbackType :: rest =>
    if ¬ protocolPrefixOf targetProviderType = protocolPrefixOf fallbackType then
      fallbackTier2Chain providerModels s now targetProviderType targetModel sessionId
        skipUsageCount rest
    else if ¬ (providerModels fallbackType).isEmpty ∧
        ¬ (providerModels fallbackType).contains targetModel then
      fallbackTier2Chain providerModels s now targetProviderType targetModel sessionId
        skipUsageCount rest
    else
      match (selectProvider s now fallbackType (some targetModel) sessionId
          skipUsageCount true).2 with
      | some cfg =>
        ((selectProvider s now fallbackType (some targetModel) sessionId skipUsageCount true).1,
         some { config := cfg, actualProviderType := fallbackType,
                isFallback := true, actualModel := some targetModel })
      | none =>
        fallbackTier2Chain providerModels
          (selectProvider s now fallbackType (some targetModel) sessionId skipUsageCount true).1
          now targetProviderType targetModel sessionId skipUsageCount rest

/-- Tier 2 of `selectProviderWithFallback`: the model-fallback mapping. -/
def fallbackTier2 (providerModels : String → List String) (s : PoolState) (now : Nat)
    (requestedModel : Option String) (sessionId : Option String) (skipUsageCount : Bool) :
    PoolState × Option FallbackResult :=
  match requestedModel with
  | none => (s, none)
  | some m =>
    match mappingOf s m with
    | none => (s, none)
    | some (targetProviderType, targetModel) =>
      if targetProviderType = "" ∨ targetModel = "" then (s, none)
      else if (poolOf s targetProviderType).isEmpty then (s, none)
      else
        match (selectProvider s now targetProviderType (some targetModel) sessionId
            skipUsageCount true).2 with
        | some cfg =>
          ((selectProvider s now targetProviderType (some targetModel) sessionId
              skipUsageCount true).1,
           some { config := cfg, actualProviderType := targetProviderType,
                  isFallback := true, actualModel := some targetModel })
        | none =>
          fallbackTier2Chain providerModels
            (selectProvider s now targetProviderType (some targetModel) sessionId
              skipUsageCount true).1
            now targetProviderType targetModel sessionId skipUsageCount
            (chainOf (selectProvider s now targetProviderType (some targetModel) sessionId
              skipUsageCount true).1 targetProviderType)

/-- `selectProviderWithFallback(providerType, requestedModel, options)`. -/
def selectProviderWithFallback (providerModels : String → List String) (s : PoolState) (now : Nat)
    (providerType : String) (requestedModel : Option String) (sessionId : Option String)
    (skipUsageCount : Bool) : PoolState × Option FallbackResult :=
  if providerType = "" then (s, none)
  else
    match (fallbackTier1 providerModels s now providerType requestedModel sessionId
        skipUsageCount [] (providerType :: chainOf s providerType)).2 with
    | some r =>
      ((fallbackTier1 providerModels s now providerType requestedModel sessionId
          skipUsageCount [] (providerType :: chainOf s providerType)).1, some r)
    | none =>
      fallbackTier2 providerModels
        (fallbackTier1 providerModels s now providerType requestedModel sessionId
          skipUsageCount [] (providerType :: chainOf s providerType)).1
        now requestedModel sessionId skipUsageCount

/-! ## Health checks -/

/-- Outcome of `_checkProviderHealth` beyond the deterministic
`checkHealth` guard: `ok`/`fail` model the `{success, modelName, errorMessage}`
result of the upstream probe, `exn` a thrown exception.  The probe itself is an
external network call, abstracted as a function parameter. -/
inductive ProbeOutcome where
  | ok (modelName : Option String)
  | fail (modelName : Option String) (errorMessage : Option String)
  | exn (message : String)
  deriving Repr, DecidableEq

/-- The 2-minute back-off of `performHealthChecks`: skip an unhealthy
credential whose last error is younger than 120 000 ms (with `Nat`
subtraction, a `lastErrorTime` in the future also counts as recent, matching
the JS signed subtraction being `< 120000`). -/
def healthSkipRecent (now : Nat) (c : Cred) : Bool :=
  match c.lastErrorTime with
  | some t => now - t < 120000
  | none => false

/-- One credential's step of `performHealthChecks` at position `i` of pool
`providerType` (the `for ... of` body).  Returns the new state and, when the
upstream probe was actually invoked, the probed `(providerType, uuid)`. -/
def healthStep (probe : String → Cred → ProbeOutcome) (now : Nat) (s : PoolState)
    (providerType : String) (i : Nat) : PoolState × Option (String × String) :=
  match (poolOf s providerType).get? i with
  | none => (s, none)
  | some c =>
    if c.isHealthy then (s, none)
    else if healthSkipRecent now c then (s, none)
    else if ¬ c.checkHealth then
      -- `_checkProviderHealth` returns null: "Check not implemented"
      (resetProviderCounters s providerType c.uuid, none)
    else
      match probe providerType c with
      | .ok modelName =>
        (markProviderHealthy s now providerType c.uuid true modelName, some (providerType, c.uuid))
      | .fail modelName errorMessage =>
        let s1 := markProviderUnhealthy s now providerType c.uuid errorMessage
        -- the direct writes to `providerStatus.config` after the failed check
        let s2 := match (poolOf s1 providerType).get? i with
          | none => s1
          | some c2 =>
            setCredAt s1 providerType i
              { c2 with
                lastHealthCheckTime := some now
                lastHealthCheckModel := match modelName with
                  | some m => some m
                  | none => c2.lastHealthCheckModel }
        (s2, some (providerType, c.uuid))
      | .exn message =>
        (markProviderUnhealthy s now providerType c.uuid (some message),
         some (providerType, c.uuid))

/-- `performHealthChecks()`: iterate every `(providerType, index)` (the pools
and their lengths are fixed before the loop; mutations never add or remove
entries).  Also returns the list of issued probes. -/
def performHealthChecks (probe : String → Cred → ProbeOutcome) (now : Nat) (s : PoolState) :
    PoolState × List (String × String) :=
  ((s.pools.map (fun p => (p.1, p.2.length))).flatMap
      (fun p => (List.range p.2).map (fun i => (p.1, i)))).foldl
    (fun acc step =>
      let r := healthStep probe now acc.1 step.1 step.2
      (r.1, acc.2 ++ r.2.toList))
    (s, [])

/-- `initializeProviderStatus()` as state construction from the raw pools and
options (`maxErrorCount ?? 3`, sticky-session defaults). -/
def initPoolState (providerPools : List (String × List RawCred))
    (maxErrorCount : Option Nat) (stickyEnabled : Bool) (stickyTtlMs : Option Nat)
    (stickyMaxSessions : Option Nat)
    (fallbackChain : List (String × List String))
    (modelFallbackMapping : List (String × (String × String))) : PoolState :=
  { pools := providerPools.map (fun p => (p.1, p.2.map initCred))
    maxErrorCount := maxErrorCount.getD 3
    stickyEnabled := stickyEnabled
    stickyTtlMs := stickyTtlMs.getD (30 * 60 * 1000)
    stickyMaxSessions := stickyMaxSessions.getD 10000
    stickyMap := []
    pendingSaves := []
    fallbackChain := fallbackChain
    modelFallbackMapping := modelFallbackMapping }

/-! ## Kiro adapter: `callApi` error handling

`KiroApiService.callApi` posts the request and dispatches on the failure:
401 (first time) → refresh token and retry once; 403 → mark unhealthy, throw;
429 / 5xx / retryable network error → exponential backoff and retry while
`retryCount < maxRetries`; anything else → throw.  The upstream and the token
endpoint are external, so one run is determined by the outcome of each
successive post (`responses`) and of the (at most one) token refresh
(`refreshOk`).  `isRetryableNetworkError` lives in `src/utils/common.js` (not
in src/); per the spec it recognises connection-level failures (reset, timeout,
DNS, closed socket), which carry no HTTP status — `netErr` below. -/

/-- Outcome of a single upstream post. -/
inductive ApiOutcome where
  | success
  | httpErr (status : Nat)
  | netErr
  | otherErr
  deriving Repr, DecidableEq

/-- What `callApi` ultimately throws (`none` in `CallTrace.thrown` = resolved). -/
inductive Thrown where
  | apiError (outcome : ApiOutcome)
  | refreshFailure
  deriving Repr, DecidableEq

/-- Observable trace of one `callApi` invocation: number of posts issued,
number of 401-triggered token refreshes, the reasons passed to
`_markCredentialUnhealthy` (each such call invokes
`poolManager.markProviderUnhealthyImmediately` on this credential when the pool
manager is present and the credential has a uuid), and the propagated error. -/
structure CallTrace where
  attempts : Nat
  refreshes : Nat
  marks : List String
  thrown : Option Thrown
  deriving Repr, DecidableEq

/-- `callApi(method, model, body, isRetry, retryCount)` with
`maxRetries = config.REQUEST_MAX_RETRIES || 3`; `attempt` counts the posts
already made (index into `responses`).  Backoff delays are I/O and elided. -/
def callApi (maxRetries : Nat) (responses : Nat → ApiOutcome) (refreshOk : Bool)
    (attempt : Nat) (isRetry : Bool) (retryCount : Nat) : CallTrace :=
  match responses attempt with
  | .success => { attempts := 1, refreshes := 0, marks := [], thrown := none }
  | outcome =>
    let status : Option Nat := match outcome with | .httpErr n => some n | _ => none
    let isNetworkError : Bool := outcome = ApiOutcome.netErr
    let is5xx : Bool := match status with | some n => 500 ≤ n ∧ n < 600 | none => false
    if status = some 401 ∧ ¬ isRetry then
      if refreshOk then
        let sub := callApi maxRetries responses refreshOk (attempt + 1) true retryCount
        { sub with attempts := sub.attempts + 1, refreshes := sub.refreshes + 1 }
      else
        { attempts := 1, refreshes := 1,
          marks := ["401 Unauthorized - Token refresh failed"],
          thrown := some Thrown.refreshFailure }
    else if status = some 403 then
      { attempts := 1, refreshes := 0, marks := ["403 Forbidden"],
        thrown := some (Thrown.apiError outcome) }
    else if status = some 429 ∧ retryCount < maxRetries then
      let sub := callApi maxRetries responses refreshOk (attempt + 1) isRetry (retryCount + 1)
      { sub with attempts := sub.attempts + 1 }
    else if is5xx ∧ retryCount < maxRetries then
      let sub := callApi maxRetries responses refreshOk (attempt + 1) isRetry (retryCount + 1)
      { sub with attempts := sub.attempts + 1 }
    else if isNetworkError ∧ retryCount < maxRetries then
      let sub := callApi maxRetries responses refreshOk (attempt + 1) isRetry (retryCount + 1)
      { sub with attempts := sub.attempts + 1 }
    else
      { attempts := 1, refreshes := 0, marks := [],
        thrown := some (Thrown.apiError outcome) }
termination_by 2 * (maxRetries + 1 - retryCount) + (if isRetry then 0 else 1)
decreasing_by
  all_goals simp_all
  all_goals omega

/-! ## Kiro cache estimator: request values

Request contents are dynamic JSON.  `JVal` covers the shapes the estimator
inspects: absent/null, strings, arrays of parts, and plain objects.  An object
(`blk`) carries the fields the estimator reads (a field that is JS-falsy —
absent, `null` or `""` — is `none`, matching the `if (c.field)` truthiness
tests), plus:
* `input` and `cacheControl` hold the `JSON.stringify` image of those values
  (the code only ever serialises them);
* `json` holds the `JSON.stringify` image of the whole object, used when a
  non-array object is serialised wholesale. -/
inductive JVal where
  | jsNull
  | str (s : String)
  | arr (items : List JVal)
  | blk (type? : Option String) (text : Option String) (thinking : Option String)
        (toolUseId : Option String) (name : Option String) (id : Option String)
        (input : Option String) (cacheControl : Option String)
        (content : JVal) (json : String)

/-- JS truthiness of a content value (`0`/`false` contents are not modelled). -/
def jvalTruthy : JVal → Bool
  | .jsNull => false
  | .str s => ¬ s = ""
  | .arr _ => true
  | .blk _ _ _ _ _ _ _ _ _ _ => true

/-- `if (x) parts.push(x)` for an optional string field. -/
def pushIf (o : Option String) : List String :=
  match o with
  | some s => if s = "" then [] else [s]
  | none => []

/-! ### `normalizeTextForHash`: character classes and run collapsing -/

/-- The right-arrow class `[→⇒➜➔➙➛►▶︎▸⮕]` (the `▶︎` glyph is `▶` followed by
variation selector U+FE0E, so the class also contains U+FE0E). -/
def isRightArrowChar (c : Char) : Bool :=
  c = '→' ∨ c = '⇒' ∨ c = '➜' ∨ c = '➔' ∨ c = '➙' ∨ c = '➛' ∨ c = '►' ∨ c = '▶' ∨
    c = '︎' ∨ c = '▸' ∨ c = '⮕'

/-- The left-arrow class `[←⇐◄◀︎◂⬅]` (again with U+FE0E from `◀︎`). -/
def isLeftArrowChar (c : Char) : Bool :=
  c = '←' ∨ c = '⇐' ∨ c = '◄' ∨ c = '◀' ∨ c = '︎' ∨ c = '◂' ∨ c = '⬅'

/-- The two-way arrow class `[↔⇔]`. -/
def isBothArrowChar (c : Char) : Bool := c = '↔' ∨ c = '⇔'

/-- The private-use-area class `[\u{E000}-\u{F8FF}]`. -/
def isPuaChar (c : Char) : Bool := 0xE000 ≤ c.val.toNat ∧ c.val.toNat ≤ 0xF8FF

/-- The control-character class `[\x00-\x08\x0B\x0C\x0E-\x1F]`. -/
def isCtrlChar (c : Char) : Bool :=
  c.val.toNat ≤ 0x08 ∨ c.val.toNat = 0x0B ∨ c.val.toNat = 0x0C ∨
    (0x0E ≤ c.val.toNat ∧ c.val.toNat ≤ 0x1F)

/-- Global replacement of a one-character class: `/[class]/g → rep`. -/
def replaceClass (cls : Char → Bool) (rep : String) (s : String) : String :=
  String.join (s.data.map (fun c => if cls c then rep else String.singleton c))

/-- Number of consecutive occurrences of `pat` at the head of `l`, and the
remainder after them. -/
def countRuns (pat l : List Char) : Nat × List Char :=
  if h : 0 < pat.length ∧ pat.isPrefixOf l then
    let r := countRuns pat (l.drop pat.length)
    (r.1 + 1, r.2)
  else (0, l)
termination_by l.length
decreasing_by
  have hle : pat.length ≤ l.length := (List.isPrefixOf_iff_prefix.mp h.2).length_le
  simp only [List.length_drop]
  omega

/-- Collapse every run of `minCount`-or-more consecutive copies of `pat` into
`rep`, scanning left to right — `/(pat){minCount,}/g → rep` for this kind of
pattern (`fuel` is the remaining scan budget; one character or more is consumed
per step, so starting it at the string length makes it inexhaustible). -/
def collapseRunsGo (pat rep : List Char) (minCount : Nat) : Nat → List Char → List Char
  | 0, l => l
  | _ + 1, [] => []
  | fuel + 1, c :: rest =>
    let r := countRuns pat (c :: rest)
    if minCount ≤ r.1 then rep ++ collapseRunsGo pat rep minCount fuel r.2
    else c :: collapseRunsGo pat rep minCount fuel rest

/-- `/(pat){minCount,}/g → rep` over a string. -/
def collapseRuns (pat rep : String) (minCount : Nat) (s : String) : String :=
  String.mk (collapseRunsGo pat.data rep.data minCount s.data.length s.data)

/-- JS `\s` (whitespace class) for the characters that occur in practice. -/
def isJsWs (c : Char) : Bool :=
  c = ' ' ∨ c = '\t' ∨ c = '\n' ∨ c = '\r' ∨ c.val.toNat = 0x0B ∨ c.val.toNat = 0x0C ∨
    c = ' ' ∨ c = '﻿' ∨ c = ' ' ∨
    (0x2000 ≤ c.val.toNat ∧ c.val.toNat ≤ 0x200A) ∨
    c = ' ' ∨ c = ' ' ∨ c = ' ' ∨ c = ' ' ∨ c = '　'

/-- Length of the maximal whitespace run at the head of `l`. -/
def leadingWsLen : List Char → Nat
  | [] => 0
  | c :: rest => if isJsWs c then leadingWsLen rest + 1 else 0

/-- Whether position `e` of `l` is a `$` anchor of `/gm` mode: end of string or
immediately before a newline. -/
def isLineEndAnchor (l : List Char) (e : Nat) : Bool :=
  e = l.length ∨ l.get? e = some '\n'

/-- `/\s+$/gm → ''`: at each position, greedily match whitespace and backtrack
to the longest match ending at a line-end anchor; remove it, else advance one
character.  (`fuel` as in `collapseRunsGo`.) -/
def stripTrailingWsGo : Nat → List Char → List Char
  | 0, l => l
  | _ + 1, [] => []
  | fuel + 1, c :: rest =>
    if ¬ isJsWs c then c :: stripTrailingWsGo fuel rest
    else
      let l := c :: rest
      let j := leadingWsLen l
      match (((List.range j).map (fun e => e + 1)).filter (isLineEndAnchor l)).max? with
      | some e => stripTrailingWsGo fuel (l.drop e)
      | none => c :: stripTrailingWsGo fuel rest

/-- `text.replace(/\s+$/gm, '')`. -/
def stripTrailingWs (s : String) : String :=
  String.mk (stripTrailingWsGo s.data.length s.data)

/-- `normalizeTextForHash(text)` — the replacement pipeline, in source order. -/
def normalizeTextForHash (text : String) : String :=
  if text = "" then text
  else
    stripTrailingWs
      (collapseRuns "_" "__" 3
        (collapseRuns "-" "--" 3
          (collapseRuns "." "..." 4
            (collapseRuns "<->" "<->" 2
              (collapseRuns "<-" "<-" 2
                (collapseRuns "->" "->" 2
                  (replaceClass isCtrlChar ""
                    (replaceClass isPuaChar ""
                      (replaceClass (fun c => c = '�') "->"
                        (replaceClass isBothArrowChar "<->"
                          (replaceClass isLeftArrowChar "<-"
                            (replaceClass isRightArrowChar "->" text))))))))))))

/-! ### `contentToText` and `contentToTextForHash` -/

mutual
/-- `contentToText(content, role)`: role-tagged text with all metadata, used for
token estimation (`tokens[i]` of §4.3). -/
def contentToText (content : JVal) (role : Option String) : String :=
  let roleParts := pushIf role
  match content with
  | .jsNull => String.intercalate " " roleParts
  | .str s =>
    if s = "" then String.intercalate " " roleParts
    else String.intercalate " " (roleParts ++ [s])
  | .arr items => String.intercalate " " (roleParts ++ contentToTextItems items)
  | .blk _ _ _ _ _ _ _ _ _ json => String.intercalate " " (roleParts ++ [json])

/-- The `for (const c of content)` loop of `contentToText`. -/
def contentToTextItems (items : List JVal) : List String :=
  match items with
  | [] => []
  | c :: rest => contentToTextItem c ++ contentToTextItems rest

/-- One array element of `contentToText`: a string is pushed verbatim; an
object contributes its truthy fields in source order (`type`, `cache_control`,
`text`, `thinking`, `tool_use_id`, `name`, `id`, `input`, `content`); anything
else contributes nothing (none of the accessed fields exist on it). -/
def contentToTextItem (c : JVal) : List String :=
  match c with
  | .str s => [s]
  | .blk type? text thinking toolUseId name id input cacheControl content _ =>
    pushIf type? ++ pushIf cacheControl ++ pushIf text ++ pushIf thinking ++
      pushIf toolUseId ++ pushIf name ++ pushIf id ++ pushIf input ++
      (if jvalTruthy content then [contentToText content none] else [])
  | _ => []
end

mutual
/-- `contentToTextForHash(content, role)`: the stable projection hashed per
message; excludes `cache_control`, `tool_use_id`, `id`, `input`, normalises
text, and applies the `tool_result` strategy. -/
def contentToTextForHash (strategy : String) (content : JVal) (role : Option String) : String :=
  let roleParts := pushIf role
  match content with
  | .jsNull => String.intercalate " " roleParts
  | .str s =>
    if s = "" then String.intercalate " " roleParts
    else String.intercalate " " (roleParts ++ [normalizeTextForHash s])
  | .arr items => String.intercalate " " (roleParts ++ hashTextItems strategy items)
  | .blk type? text _ _ name _ _ _ _ _ =>
    String.intercalate " "
      (roleParts ++ (pushIf type? ++ (pushIf text).map normalizeTextForHash ++ pushIf name))

/-- The array loop of `contentToTextForHash`. -/
def hashTextItems (strategy : String) (items : List JVal) : List String :=
  match items with
  | [] => []
  | c :: rest => hashTextItem strategy c ++ hashTextItems strategy rest

/-- One array element of `contentToTextForHash`, including the `tool_result`
strategy dispatch. -/
def hashTextItem (strategy : String) (c : JVal) : List String :=
  match c with
  | .str s => [normalizeTextForHash s]
  | .blk type? text thinking _ name _ _ _ content _ =>
    if type? = some "tool_result" then
      if strategy = "ignore" then []
      else
        ["tool_result"] ++ pushIf name ++
          (if strategy = "strict" then
            (if jvalTruthy content then [contentToTextForHash strategy content none] else [])
          else [])
    else
      pushIf type? ++ (pushIf text).map normalizeTextForHash ++
        (pushIf thinking).map normalizeTextForHash ++ pushIf name ++
        (if jvalTruthy content then [contentToTextForHash strategy content none] else [])
  | _ => []
end

/-! ### Request shape, token counting, hashing -/

/-- A request message.  `cacheControl` is the message-level `cache_control`
(serialised; `none` = absent/falsy). -/
structure KiroMsg where
  role : String
  content : JVal
  cacheControl : Option String

instance : Inhabited KiroMsg := ⟨⟨"", JVal.jsNull, none⟩⟩

/-- A tool definition: the fields the estimator reads, `inputSchema` and
`cacheControl` as their `JSON.stringify` images, and `json` the serialisation
of the whole tool object (for `JSON.stringify(tools)`). -/
structure KiroTool where
  name : Option String
  description : Option String
  inputSchema : Option String
  cacheControl : Option String
  json : String

/-- `request.thinking` (only `type` and `budget_tokens` are read; `none` field
= `undefined`, omitted by `JSON.stringify`). -/
structure KiroThinking where
  type : Option String
  budgetTokens : Option Nat

/-- The request as the estimator sees it: `system` (`jsNull` = absent),
`tools` (`[]` = absent or empty), `messages`, `tool_choice` (serialised) and
`thinking`. -/
structure KiroRequest where
  system : JVal
  tools : List KiroTool
  messages : List KiroMsg
  toolChoice : Option String
  thinking : Option KiroThinking

/-- `countTokensSimple(text)`: `0` for falsy text, else the tokenizer.  `tok`
stands for the external `@anthropic-ai/tokenizer` `countTokens`, whose
`catch` fallback is `Math.ceil(text.length / 4)` (`charFallbackTok` below). -/
def countTokensSimple (tok : String → Nat) (text : String) : Nat :=
  if text = "" then 0 else tok text

/-- The tokenizer fallback `Math.ceil(text.length / 4)` — the concrete
instance of `tok` used for concrete evaluations. -/
def charFallbackTok (text : String) : Nat := (text.length + 3) / 4

/-- `p && p.cache_control` for an array element. -/
def itemHasCacheControl : JVal → Bool
  | .blk _ _ _ _ _ _ _ cacheControl _ _ => (pushIf cacheControl).length ≠ 0
  | _ => false

/-- `messageHasCacheControl(msg)`. -/
def messageHasCacheControl (msg : KiroMsg) : Bool :=
  if (pushIf msg.cacheControl).length ≠ 0 then true
  else match msg.content with
    | .arr items => items.any itemHasCacheControl
    | .blk _ _ _ _ _ _ _ cacheControl _ _ => (pushIf cacheControl).length ≠ 0
    | _ => false

/-- One cached-message record `{ index, role, contentHash, tokens }`. -/
structure CachedMsg where
  index : Nat
  role : String
  contentHash : String
  tokens : Nat
  deriving Repr, DecidableEq

/-- The `staticPrefix` part of `extractCacheableContent`'s result. -/
structure StaticPart where
  system : JVal
  systemHasCacheControl : Bool
  toolsHasCacheControl : Bool
  tools : Option (List KiroTool)

/-- The result of `extractCacheableContent`. -/
structure CacheableContent where
  staticPart : StaticPart
  hasCacheControl : Bool
  cachedMessages : List CachedMsg
  lastCacheBreakpoint : Int
  prefixMessagesTokens : Nat
  allMessagesTokens : List Nat

/-- Index of the last message with `cache_control` (`-1` when none), the
`lastCacheControlIndex` loop. -/
def lastCacheControlIndex (messages : List KiroMsg) : Int :=
  (messages.enum.foldl
    (fun acc e => if messageHasCacheControl e.2 then (e.1 : Int) else acc) (-1 : Int))

/-- `extractCacheableContent(request)`.  `md5` stands for the external
`crypto.createHash('md5')` digest of `simpleHash`. -/
def extractCacheableContent (strategy : String) (tok : String → Nat) (md5 : String → String)
    (req : KiroRequest) : CacheableContent :=
  let systemTruthy := jvalTruthy req.system
  let systemHasCC :=
    if systemTruthy then
      match req.system with
      | .arr items => items.any itemHasCacheControl
      | .blk _ _ _ _ _ _ _ cacheControl _ _ => (pushIf cacheControl).length ≠ 0
      | _ => false
    else false
  let toolsHasCC :=
    if req.tools.length ≠ 0 then
      match req.tools.getLast? with
      | some lastTool => (pushIf lastTool.cacheControl).length ≠ 0
      | none => false
    else false
  let msgs := req.messages
  let lastCC : Int := if msgs.length ≠ 0 then lastCacheControlIndex msgs else -1
  let allTok : List Nat :=
    if msgs.length ≠ 0 then
      msgs.map (fun m => countTokensSimple tok (contentToText m.content (some m.role)))
    else []
  let cached : List CachedMsg :=
    if 0 ≤ lastCC then
      (List.range (lastCC.toNat + 1)).map (fun i =>
        let m := msgs.getD i default
        { index := i
          role := m.role
          contentHash := md5 (contentToTextForHash strategy m.content (some m.role))
          tokens := allTok.getD i 0 })
    else []
  { staticPart :=
      { system := if systemTruthy then req.system else JVal.jsNull
        systemHasCacheControl := systemHasCC
        toolsHasCacheControl := toolsHasCC
        tools := if req.tools.length ≠ 0 then some req.tools else none }
    hasCacheControl := systemHasCC ∨ toolsHasCC ∨ 0 ≤ lastCC
    cachedMessages := cached
    lastCacheBreakpoint := lastCC
    prefixMessagesTokens := if 0 ≤ lastCC then (allTok.take (lastCC.toNat + 1)).sum else 0
    allMessagesTokens := allTok }

/-- `JSON.stringify(tools)` from the per-tool serialisations. -/
def toolsJson (tools : List KiroTool) : String :=
  "[" ++ String.intercalate "," (tools.map (·.json)) ++ "]"

/-- `countStaticPrefixTokens(cacheableContent)`: system + tools tokens,
regardless of `cache_control`. -/
def countStaticPrefixTokens (tok : String → Nat) (cc : CacheableContent) : Nat :=
  (if jvalTruthy cc.staticPart.system then
    countTokensSimple tok (contentToText cc.staticPart.system none)
  else 0) +
  (match cc.staticPart.tools with
   | some ts => countTokensSimple tok (toolsJson ts)
   | none => 0)

/-- Minimal JSON string escaping for the serialisations below (backslash,
quote and the common control escapes; exotic control characters do not occur
in the values built here). -/
def jsonEscapeChar (c : Char) : String :=
  if c = '\\' then "\\\\"
  else if c = '"' then "\\\""
  else if c = '\n' then "\\n"
  else if c = '\r' then "\\r"
  else if c = '\t' then "\\t"
  else String.singleton c

/-- `JSON.stringify` of a string. -/
def jsonStr (s : String) : String :=
  "\"" ++ String.join (s.data.map jsonEscapeChar) ++ "\""

/-- Serialise a JSON object from `(key, serialised-value)` pairs, in insertion
order. -/
def jsonObj (fields : List (String × String)) : String :=
  "\x7b" ++ String.intercalate "," (fields.map (fun f => jsonStr f.1 ++ ":" ++ f.2)) ++ "\x7d"

/-- `JSON.stringify ∘ extractStableFields` on a stable object: keys `type`,
`text`, `cache_control`, each included iff truthy. -/
def stableObjJson (type? text cacheControl : Option String) : String :=
  jsonObj
    (((pushIf type?).map (fun v => ("type", jsonStr v))) ++
     ((pushIf text).map (fun v => ("text", jsonStr v))) ++
     ((pushIf cacheControl).map (fun v => ("cache_control", v))))

/-- `JSON.stringify ∘ extractStableFields` on one array element.  A nested
array or `null` keeps only its own serialisation (no stable fields exist on
it). -/
def stableItemJson : JVal → String
  | .str s => jsonStr s
  | .blk type? text _ _ _ _ _ cacheControl _ _ => stableObjJson type? text cacheControl
  | .arr _ => jsonObj []
  | .jsNull => "null"

/-- `JSON.stringify(extractStableFields(system))`. -/
def stableSystemJson : JVal → String
  | .jsNull => "null"
  | .str s => jsonStr s
  | .arr items => "[" ++ String.intercalate "," (items.map stableItemJson) ++ "]"
  | .blk type? text _ _ _ _ _ cacheControl _ _ => stableObjJson type? text cacheControl

/-- `JSON.stringify(extractStableToolsFields(tools))`: keys `name`,
`description`, `input_schema`, each included iff truthy. -/
def stableToolsJson : Option (List KiroTool) → String
  | none => "null"
  | some ts =>
    "[" ++ String.intercalate ","
      (ts.map (fun t => jsonObj
        (((pushIf t.name).map (fun v => ("name", jsonStr v))) ++
         ((pushIf t.description).map (fun v => ("description", jsonStr v))) ++
         ((pushIf t.inputSchema).map (fun v => ("input_schema", v)))))) ++ "]"

/-- `JSON.stringify` of the `thinking` projection `{type, budget_tokens}`
(`undefined` fields omitted). -/
def thinkingJson : Option KiroThinking → String
  | none => "null"
  | some th =>
    jsonObj
      ((th.type.map (fun v => ("type", jsonStr v))).toList ++
       (th.budgetTokens.map (fun v => ("budget_tokens", toString v))).toList)

/-- `computeContentHash(cacheableContent, model, request)`. -/
def computeContentHash (md5 : String → String) (cc : CacheableContent) (model : String)
    (req : KiroRequest) : String :=
  md5 (jsonObj
    [("model", jsonStr model),
     ("system", stableSystemJson cc.staticPart.system),
     ("tools", stableToolsJson cc.staticPart.tools),
     ("tool_choice", (req.toolChoice.map id).getD "null"),
     ("thinking", thinkingJson req.thinking)])

/-! ### The per-account LRU request cache and the main entry point -/

/-- The value stored under a `prefixHash` key. -/
structure CachedEntry where
  staticPrefixTokens : Nat
  staticCacheable : Nat
  prefixMessagesTokens : Nat
  lastCacheBreakpoint : Int
  cachedMessages : List CachedMsg
  allMessagesTokens : List Nat
  hitCount : Nat
  deriving Repr, DecidableEq

/-- A `SimpleLRUCache` item `{ ...value, timestamp }`. -/
structure CacheItem where
  timestamp : Nat
  value : CachedEntry
  deriving Repr, DecidableEq

/-- `SimpleLRUCache`: a JS `Map` in insertion order plus capacity and TTL. -/
structure LRUCache where
  maxSize : Nat
  ttl : Nat
  entries : List (String × CacheItem)
  deriving Repr, DecidableEq

/-- `SimpleLRUCache.get(key)`: TTL-expired entries are dropped, live entries
get a refreshed timestamp (LRU touch) and are returned. -/
def lruGet (c : LRUCache) (now : Nat) (key : String) : LRUCache × Option CacheItem :=
  match c.entries.find? (fun e => e.1 = key) with
  | none => (c, none)
  | some e =>
    if c.ttl < now - e.2.timestamp then
      ({ c with entries := c.entries.filter (fun e' => ¬ e'.1 = key) }, none)
    else
      let item := { e.2 with timestamp := now }
      ({ c with entries := c.entries.map (fun e' => if e'.1 = key then (e'.1, item) else e') },
       some item)

/-- `SimpleLRUCache.set(key, {value})`: update in place when present, else
evict the oldest (first-inserted) entry if at capacity and append. -/
def lruSet (c : LRUCache) (now : Nat) (key : String) (value : CachedEntry) : LRUCache :=
  if (c.entries.find? (fun e => e.1 = key)).isSome then
    let item : CacheItem := { timestamp := now, value := value }
    { c with entries := c.entries.map (fun e => if e.1 = key then (e.1, item) else e) }
  else
    let entries :=
      if c.maxSize ≤ c.entries.length then
        match c.entries.head? with
        | some first => c.entries.filter (fun e => ¬ e.1 = first.1)
        | none => c.entries
      else c.entries
    { c with entries := entries ++ [(key, { timestamp := now, value := value })] }

/-- The estimator configuration after the `KiroCacheEstimator` constructor's
`||`-defaulting (only the fields `estimateCacheTokens` reads are kept:
`enabled`, `minCacheableTokens`, `toolResultStrategy`; `optimistic` mirrors the
module-global `CACHE_ESTIMATION_CONFIG.OPTIMISTIC_MATCHING`, i.e. the
`KIRO_OPTIMISTIC_CACHE !== 'false'` environment toggle.  The `DEBUG` logging
and the `stats` counters are pure observation and omitted). -/
structure EstConfig where
  enabled : Bool
  minCacheableTokens : Nat
  toolResultStrategy : String
  optimistic : Bool

/-- The config of `new KiroCacheEstimator({})`, as created by
`getCacheEstimatorForAccount(this.uuid)`: every option takes its
`CACHE_ESTIMATION_CONFIG` default, in particular
`minCacheableTokens = MIN_MATCHED_TOKENS = 1024` and
`toolResultStrategy = 'strict'`. -/
def defaultEstConfig (optimistic : Bool) : EstConfig :=
  { enabled := true, minCacheableTokens := 1024, toolResultStrategy := "strict",
    optimistic := optimistic }

/-- The returned split (plus the `_estimation.source` tag). -/
structure EstimateResult where
  cache_read_input_tokens : Nat
  cache_creation_input_tokens : Nat
  uncached_input_tokens : Nat
  source : String
  deriving Repr, DecidableEq

/-- Optimistic matching: each position of `currentMessages` is compared with
the same position of `previousMessages`; returns
`(matched tokens, unmatched tokens)` (`cache_read` additions and
`cache_creation`). -/
def optimisticSplit : List CachedMsg → List CachedMsg → Nat × Nat
  | _, [] => (0, 0)
  | [], cur :: curs =>
    let rest := optimisticSplit [] curs
    (rest.1, cur.tokens + rest.2)
  | prev :: prevs, cur :: curs =>
    let rest := optimisticSplit prevs curs
    if prev.index = cur.index ∧ prev.contentHash = cur.contentHash then
      (cur.tokens + rest.1, rest.2)
    else (rest.1, cur.tokens + rest.2)

/-- Strict matching: length of the matching position-wise common head of the
two message lists (`lastMatchedBreakpoint + 1`; the prefix "breaks" at the
first mismatch). -/
def strictMatchedCount : List CachedMsg → List CachedMsg → Nat
  | prev :: prevs, cur :: curs =>
    if prev.index = cur.index ∧ prev.contentHash = cur.contentHash then
      strictMatchedCount prevs curs + 1
    else 0
  | _, _ => 0

/-- `estimateCacheTokens(request, totalInputTokens, model)` — returns the
split and the updated per-account request cache. -/
def estimateCacheTokens (cfg : EstConfig) (tok : String → Nat) (md5 : String → String)
    (st : LRUCache) (now : Nat) (req : KiroRequest) (totalInputTokens : Nat) (model : String) :
    EstimateResult × LRUCache :=
  if ¬ cfg.enabled then
    ({ cache_read_input_tokens := 0, cache_creation_input_tokens := 0,
       uncached_input_tokens := totalInputTokens, source := "disabled" }, st)
  else
    let cc := extractCacheableContent cfg.toolResultStrategy tok md5 req
    if ¬ cc.hasCacheControl then
      ({ cache_read_input_tokens := 0, cache_creation_input_tokens := 0,
         uncached_input_tokens := totalInputTokens, source := "no_cache_control" }, st)
    else
      let staticPrefixTokens := countStaticPrefixTokens tok cc
      let prefixMessagesTokens := cc.prefixMessagesTokens
      let systemHasCC := cc.staticPart.systemHasCacheControl
      let toolsHasCC := cc.staticPart.toolsHasCacheControl
      let staticCacheable := if systemHasCC ∨ toolsHasCC then staticPrefixTokens else 0
      let totalCacheableTokens := staticCacheable + prefixMessagesTokens
      -- `Math.max(0, totalInputTokens - totalCacheableTokens)` = Nat subtraction
      let uncachedTokens := totalInputTokens - totalCacheableTokens
      if totalCacheableTokens < cfg.minCacheableTokens then
        ({ cache_read_input_tokens := 0, cache_creation_input_tokens := 0,
           uncached_input_tokens := totalInputTokens, source := "below_threshold" }, st)
      else
        let prefixHash := computeContentHash md5 cc model req
        let got := lruGet st now prefixHash
        let st1 := got.1
        match got.2 with
        | some item =>
          let cachedEntry := item.value
          let previousMessages := cachedEntry.cachedMessages
          let currentMessages := cc.cachedMessages
          let allTok := cc.allMessagesTokens
          let k := cc.lastCacheBreakpoint
          let split : Nat × Nat :=
            if cfg.optimistic then
              let r := optimisticSplit previousMessages currentMessages
              (staticCacheable + r.1, r.2)
            else
              let matched := strictMatchedCount previousMessages currentMessages
              if currentMessages.length = 0 then (staticCacheable, 0)
              else if matched = currentMessages.length then
                (staticCacheable + (allTok.take ((k + 1).toNat)).sum, 0)
              else
                let lm : Int := (matched : Int) - 1
                (staticCacheable +
                   (if 0 ≤ lm then (allTok.take ((lm + 1).toNat)).sum else 0),
                 ((allTok.take ((k + 1).toNat)).drop ((lm + 1).toNat)).sum)
          let st2 := lruSet st1 now prefixHash
            { staticPrefixTokens := staticPrefixTokens
              staticCacheable := staticCacheable
              prefixMessagesTokens := prefixMessagesTokens
              lastCacheBreakpoint := k
              cachedMessages := currentMessages
              allMessagesTokens := allTok
              hitCount := cachedEntry.hitCount + 1 }
          ({ cache_read_input_tokens := split.1
             cache_creation_input_tokens := split.2
             uncached_input_tokens := uncachedTokens
             source := if 0 < split.2 then "cache_hit_partial" else "cache_hit" }, st2)
        | none =>
          let st2 := lruSet st1 now prefixHash
            { staticPrefixTokens := staticPrefixTokens
              staticCacheable := staticCacheable
              prefixMessagesTokens := prefixMessagesTokens
              lastCacheBreakpoint := cc.lastCacheBreakpoint
              cachedMessages := cc.cachedMessages
              allMessagesTokens := cc.allMessagesTokens
              hitCount := 0 }
          ({ cache_read_input_tokens := 0
             cache_creation_input_tokens := totalCacheableTokens
             uncached_input_tokens := uncachedTokens
             source := "cache_creation" }, st2)

/-- `getMinCacheTokens`'s threshold table (insertion order; the `default`
entry is separate). -/
def modelMinCacheTable : List (String × Nat) :=
  [("claude-opus-4-5", 4096), ("claude-opus-4", 1024), ("claude-sonnet-4-5", 1024),
   ("claude-sonnet-4", 1024), ("claude-sonnet-3-7", 1024), ("claude-haiku-4-5", 4096),
   ("claude-haiku-3-5", 2048), ("claude-haiku-3", 2048)]

/-- `getMinCacheTokens(model)`: exact lookup, then first prefix match in table
order, then the default 1024.  (Defined in `claude-kiro.js` — but never
called; see `C4`.) -/
def getMinCacheTokens (model : String) : Nat :=
  if model = "" then 1024
  else match modelMinCacheTable.find? (fun e => e.1 = model) with
    | some e => e.2
    | none =>
      match modelMinCacheTable.find? (fun e => model.startsWith e.1) with
      | some e => e.2
      | none => 1024

/-! ## Sample data for witnesses -/

/-- A fresh healthy credential. -/
def credA : Cred :=
  { uuid := "a", isHealthy := true, isDisabled := false, lastUsed := none, usageCount := 0,
    errorCount := 0, lastErrorTime := none, lastErrorMessage := none,
    lastHealthCheckTime := none, lastHealthCheckModel := none, notSupportedModels := none,
    checkHealth := true, customName := none }

/-- A second fresh healthy credential. -/
def credB : Cred := { credA with uuid := "b" }

/-- A small all-healthy pool state with defaults. -/
def poolState1 : PoolState :=
  { pools := [("claude-kiro-oauth", [credA, credB])], maxErrorCount := 3,
    stickyEnabled := false, stickyTtlMs := 30 * 60 * 1000, stickyMaxSessions := 10000,
    stickyMap := [], pendingSaves := [], fallbackChain := [], modelFallbackMapping := [] }

/-! ## C9 -/

/-- C9: each state-mutating pool operation (`markProviderUnhealthy`,
`markProviderUnhealthyImmediately`, `markProviderHealthy`,
`resetProviderCounters`, `disableProvider`, `enableProvider`) is a no-op —
the whole manager state unchanged, hence also no save scheduled — when the
given `providerConfig` has no (falsy) uuid, or `_findProvider` finds no
credential with that uuid in the pool of the given type. -/
theorem c9_missing_uuid_noop (s : PoolState) (now : Nat) (t u : String)
    (msg : Option String) (resetUsage : Bool) (hcModel : Option String)
    (h : u = "" ∨ findProvider s t u = none) :
    markProviderUnhealthy s now t u msg = s ∧
    markProviderUnhealthyImmediately s now t u msg = s ∧
    markProviderHealthy s now t u resetUsage hcModel = s ∧
    resetProviderCounters s t u = s ∧
    disableProvider s t u = s ∧
    enableProvider s t u = s := by
  obtain h | h := h
  · subst h
    refine ⟨?_, ?_, ?_, ?_, ?_, ?_⟩ <;>
      simp [markProviderUnhealthy, markProviderUnhealthyImmediately, markProviderHealthy,
        resetProviderCounters, disableProvider, enableProvider]
  · refine ⟨?_, ?_, ?_, ?_, ?_, ?_⟩ <;>
      · by_cases hu : u = ""
        · simp [markProviderUnhealthy, markProviderUnhealthyImmediately, markProviderHealthy,
            resetProviderCounters, disableProvider, enableProvider, hu]
        · simp [markProviderUnhealthy, markProviderUnhealthyImmediately, markProviderHealthy,
            resetProviderCounters, disableProvider, enableProvider, hu, h]

/-- C9 witness: on a concrete pool without uuid `"x"`, all six operations
leave the state untouched. -/
theorem c9_missing_uuid_noop_witness :
    markProviderUnhealthy poolState1 5 "claude-kiro-oauth" "x" none = poolState1 ∧
    markProviderUnhealthyImmediately poolState1 5 "claude-kiro-oauth" "x" none = poolState1 ∧
    markProviderHealthy poolState1 5 "claude-kiro-oauth" "x" false none = poolState1 ∧
    resetProviderCounters poolState1 "claude-kiro-oauth" "x" = poolState1 ∧
    disableProvider poolState1 "claude-kiro-oauth" "x" = poolState1 ∧
    enableProvider poolState1 "claude-kiro-oauth" "x" = poolState1 :=
  c9_missing_uuid_noop poolState1 5 "claude-kiro-oauth" "x" none false none
    (Or.inr (by decide))

/-! ## C8 -/

/-- Every credential of every pool is healthy. -/
def allHealthy (s : PoolState) : Prop :=
  ∀ p ∈ s.pools, ∀ c ∈ p.2, c.isHealthy = true

/-- A single `performHealthChecks` iteration on a healthy credential does
nothing. -/
theorem healthStep_of_allHealthy (probe : String → Cred → ProbeOutcome) (now : Nat)
    (s : PoolState) (h : allHealthy s) (t : String) (i : Nat) :
    healthStep probe now s t i = (s, none) := by
  unfold healthStep
  cases hget : (poolOf s t).get? i with
  | none => rfl
  | some c =>
    have hc : c.isHealthy = true := by
      have hmem : c ∈ poolOf s t := List.get?_mem hget
      unfold poolOf at hmem
      cases hfind : s.pools.find? (fun p => p.1 = t) with
      | none => simp [hfind] at hmem
      | some p =>
        exact h p (List.mem_of_find?_eq_some hfind) c (by simpa [hfind] using hmem)
    simp [hc]

/-- C8: on an all-healthy pool, `performHealthChecks` changes no credential
field at all (the state is returned unchanged) and issues no upstream probe. -/
theorem c8_health_check_skips_healthy (probe : String → Cred → ProbeOutcome) (now : Nat)
    (s : PoolState) (h : allHealthy s) :
    performHealthChecks probe now s = (s, []) := by
  unfold performHealthChecks
  generalize ((s.pools.map (fun p => (p.1, p.2.length))).flatMap
    (fun p => (List.range p.2).map (fun i => (p.1, i)))) = steps
  induction steps with
  | nil => rfl
  | cons hd tl ih =>
    simp only [List.foldl_cons, healthStep_of_allHealthy probe now s h hd.1 hd.2]
    simpa using ih

/-- C8 witness: the concrete all-healthy pool is untouched by a health check
(with a probe that would report failure if it were ever consulted). -/
theorem c8_health_check_skips_healthy_witness :
    performHealthChecks (fun _ _ => ProbeOutcome.fail none (some "boom")) 99 poolState1 =
      (poolState1, []) :=
  c8_health_check_skips_healthy _ 99 poolState1 (by unfold allHealthy; decide)

/-! ## C5 -/

/-- C5 counterexample: the upstream answers 401 to every attempt and the token
refresh succeeds.  `callApi` refreshes once, retries, receives the second 401 —
and throws it to the caller **without** invoking
`_markCredentialUnhealthy`/`markProviderUnhealthyImmediately` (`marks = []`):
the `status === 401 && !isRetry` guard is the only 401 branch, and a 401 with
`isRetry = true` matches no other branch before the final `throw`.  This
refutes the claim that "a second 401 on the retried request ... invokes
markProviderUnhealthyImmediately on the credential". -/
theorem c5_counterexample :
    callApi 3 (fun _ => ApiOutcome.httpErr 401) true 0 false 0 =
      { attempts := 2, refreshes := 1, marks := [],
        thrown := some (Thrown.apiError (ApiOutcome.httpErr 401)) } := by
  simp [callApi]

/-- C5 amended: a 401 on a non-retry attempt triggers exactly one
refresh-then-retry (on refresh success the request is retried once and its
outcome is final for the 401 path); a refresh failure invokes
`markProviderUnhealthyImmediately` and propagates the refresh error; a second
401 on the retried request propagates to the caller without marking; a 403
invokes `markProviderUnhealthyImmediately` with no retry and propagates. -/
theorem c5_callApi_auth_handling (maxRetries : Nat) (responses : Nat → ApiOutcome)
    (refreshOk : Bool) :
    (responses 0 = ApiOutcome.httpErr 401 → refreshOk = true →
      responses 1 = ApiOutcome.success →
      callApi maxRetries responses refreshOk 0 false 0 =
        { attempts := 2, refreshes := 1, marks := [], thrown := none }) ∧
    (responses 0 = ApiOutcome.httpErr 401 → refreshOk = false →
      callApi maxRetries responses refreshOk 0 false 0 =
        { attempts := 1, refreshes := 1,
          marks := ["401 Unauthorized - Token refresh failed"],
          thrown := some Thrown.refreshFailure }) ∧
    (responses 0 = ApiOutcome.httpErr 401 → refreshOk = true →
      responses 1 = ApiOutcome.httpErr 401 →
      callApi maxRetries responses refreshOk 0 false 0 =
        { attempts := 2, refreshes := 1, marks := [],
          thrown := some (Thrown.apiError (ApiOutcome.httpErr 401)) }) ∧
    (responses 0 = ApiOutcome.httpErr 403 →
      callApi maxRetries responses refreshOk 0 false 0 =
        { attempts := 1, refreshes := 0, marks := ["403 Forbidden"],
          thrown := some (Thrown.apiError (ApiOutcome.httpErr 403)) }) := by
  refine ⟨?_, ?_, ?_, ?_⟩
  · intro h0 hr h1
    subst hr
    rw [callApi, h0]
    simp [callApi, h1]
  · intro h0 hr
    subst hr
    rw [callApi, h0]
    simp
  · intro h0 hr h1
    subst hr
    rw [callApi, h0]
    simp [callApi, h1]
  · intro h0
    rw [callApi, h0]
    simp

/-- C5 witness: concrete run — 401 then success, with a working refresh. -/
theorem c5_callApi_auth_handling_witness :
    callApi 3 (fun n => if n = 0 then ApiOutcome.httpErr 401 else ApiOutcome.success) true
        0 false 0 =
      { attempts := 2, refreshes := 1, marks := [], thrown := none } :=
  (c5_callApi_auth_handling 3 _ true).1 rfl rfl rfl

/-! ## C2: the error-count/health invariant -/

/-- The per-credential invariant of §3: `errorCount ≥ maxErrorCount ⇒
¬isHealthy`, for all credentials, together with the (never-mutated)
`maxErrorCount` itself. -/
def invState (m : Nat) (s : PoolState) : Prop :=
  s.maxErrorCount = m ∧ ∀ p ∈ s.pools, ∀ c ∈ p.2, m ≤ c.errorCount → c.isHealthy = false

/-- Shorthand for the credential-level implication. -/
def credInv (m : Nat) (c : Cred) : Prop := m ≤ c.errorCount → c.isHealthy = false

theorem invState_poolOf {m : Nat} {s : PoolState} (h : invState m s) (t : String) :
    ∀ c ∈ poolOf s t, credInv m c := by
  intro c hc
  unfold poolOf at hc
  cases hfind : s.pools.find? (fun p => p.1 = t) with
  | none => simp [hfind] at hc
  | some p => exact h.2 p (List.mem_of_find?_eq_some hfind) c (by simpa [hfind] using hc)

theorem mem_updateFirst {x : Cred} {p : Cred → Bool} {f : Cred → Cred} {l : List Cred}
    (h : x ∈ updateFirst p f l) : x ∈ l ∨ ∃ c ∈ l, x = f c := by
  induction l with
  | nil => simp [updateFirst] at h
  | cons c cs ih =>
    unfold updateFirst at h
    by_cases hp : p c
    · rw [if_pos hp] at h
      rcases List.mem_cons.mp h with h | h
      · exact Or.inr ⟨c, List.mem_cons_self .., h⟩
      · exact Or.inl (List.mem_cons_of_mem _ h)
    · rw [if_neg hp] at h
      rcases List.mem_cons.mp h with h | h
      · exact Or.inl (h ▸ List.mem_cons_self ..)
      · rcases ih h with h | ⟨c', hc', hx⟩
        · exact Or.inl (List.mem_cons_of_mem _ h)
        · exact Or.inr ⟨c', List.mem_cons_of_mem _ hc', hx⟩

theorem invState_setPool {m : Nat} {s : PoolState} {t : String} {cr : List Cred}
    (h : invState m s) (hcr : ∀ c ∈ cr, credInv m c) : invState m (setPool s t cr) := by
  refine ⟨h.1, ?_⟩
  intro p hp c hc
  unfold setPool at hp
  simp only at hp
  rcases List.mem_map.mp hp with ⟨q, hq, hqe⟩
  by_cases hqt : q.1 = t
  · rw [if_pos hqt] at hqe
    exact hcr c (by simpa [← hqe] using hc)
  · rw [if_neg hqt] at hqe
    exact h.2 q hq c (hqe ▸ hc)

theorem invState_debouncedSave {m : Nat} {s : PoolState} {t : String} (h : invState m s) :
    invState m (debouncedSave s t) := h

theorem invState_updateCred {m : Nat} {s : PoolState} {t u : String} {f : Cred → Cred}
    (h : invState m s) (hf : ∀ c ∈ poolOf s t, credInv m c → credInv m (f c)) :
    invState m (updateCred s t u f) := by
  refine invState_setPool h ?_
  intro c hc
  rcases mem_updateFirst hc with hc | ⟨c', hc', rfl⟩
  · exact invState_poolOf h t c hc
  · exact hf c' hc' (invState_poolOf h t c' hc')

theorem invState_markProviderUnhealthy {m : Nat} {s : PoolState} (now : Nat) (t u : String)
    (msg : Option String) (h : invState m s) :
    invState m (markProviderUnhealthy s now t u msg) := by
  unfold markProviderUnhealthy
  split
  · exact h
  · split
    · exact h
    · refine invState_debouncedSave (invState_updateCred h ?_)
      intro c _ _
      unfold credInv
      split <;> split
      · intro _
        rfl
      · next hlt =>
        intro hm
        simp only at hm hlt
        rw [h.1] at hlt
        exact absurd hm hlt
      · intro _
        rfl
      · next hlt =>
        intro hm
        simp only at hm hlt
        rw [h.1] at hlt
        exact absurd hm hlt

theorem invState_markProviderUnhealthyImmediately {m : Nat} {s : PoolState} (now : Nat)
    (t u : String) (msg : Option String) (h : invState m s) :
    invState m (markProviderUnhealthyImmediately s now t u msg) := by
  unfold markProviderUnhealthyImmediately
  split
  · exact h
  · split
    · exact h
    · refine invState_debouncedSave (invState_updateCred h ?_)
      intro c _ _ _
      rfl

theorem invState_markProviderHealthy {m : Nat} {s : PoolState} (hm : 1 ≤ m) (now : Nat)
    (t u : String) (resetUsage : Bool) (hcModel : Option String) (h : invState m s) :
    invState m (markProviderHealthy s now t u resetUsage hcModel) := by
  unfold markProviderHealthy
  split
  · exact h
  · split
    · exact h
    · refine invState_debouncedSave (invState_updateCred h ?_)
      intro c _ _ hmc
      exfalso
      split at hmc <;> simp at hmc <;> omega

theorem invState_resetProviderCounters {m : Nat} {s : PoolState} (hm : 1 ≤ m) (t u : String)
    (h : invState m s) : invState m (resetProviderCounters s t u) := by
  unfold resetProviderCounters
  split
  · exact h
  · split
    · exact h
    · refine invState_debouncedSave (invState_updateCred h ?_)
      intro c _ _ hmc
      simp at hmc
      omega

theorem invState_disableProvider {m : Nat} {s : PoolState} (t u : String) (h : invState m s) :
    invState m (disableProvider s t u) := by
  unfold disableProvider
  split
  · exact h
  · split
    · exact h
    · exact invState_debouncedSave (invState_updateCred h (fun c _ hc => hc))

theorem invState_enableProvider {m : Nat} {s : PoolState} (t u : String) (h : invState m s) :
    invState m (enableProvider s t u) := by
  unfold enableProvider
  split
  · exact h
  · split
    · exact h
    · exact invState_debouncedSave (invState_updateCred h (fun c _ hc => hc))

theorem invState_stickyDelete {m : Nat} {s : PoolState} (sid : String) (h : invState m s) :
    invState m (stickyDelete s sid) := h

theorem invState_stickySet {m : Nat} {s : PoolState} (sid : String) (sess : Session)
    (h : invState m s) : invState m (stickySet s sid sess) := by
  unfold stickySet
  split <;> exact h

theorem invState_updateStickySessionAccess {m : Nat} {s : PoolState} (now : Nat) (sid : String)
    (h : invState m s) : invState m (updateStickySessionAccess s now sid) := by
  unfold updateStickySessionAccess
  split
  · exact h
  · exact invState_stickySet _ _ h

theorem invState_evictOnce {m : Nat} {s : PoolState} (h : invState m s) :
    invState m (evictOnce s) := by
  unfold evictOnce
  split
  · exact h
  · exact invState_stickyDelete _ h

theorem invState_evictOldestSessions {m : Nat} (n : Nat) {s : PoolState} (h : invState m s) :
    invState m (evictOldestSessions s n) := by
  induction n generalizing s with
  | zero => exact h
  | succ k ih => exact ih (invState_evictOnce h)

theorem invState_createStickySession {m : Nat} {s : PoolState} (now : Nat)
    (sid t u : String) (h : invState m s) : invState m (createStickySession s now sid t u) := by
  unfold createStickySession
  split
  · exact invState_stickySet _ _ (invState_evictOldestSessions _ h)
  · exact invState_stickySet _ _ h

theorem findProvider_mem {s : PoolState} {t u : String} {c : Cred}
    (h : findProvider s t u = some c) : c ∈ poolOf s t := by
  unfold findProvider at h
  split at h
  · exact absurd h (by simp)
  · exact List.mem_of_find?_eq_some h

/-- `_trySelectFromStickySession` does not change the pools or any config, and
a hit returns a healthy member of the requested pool. -/
theorem trySelect_spec (s : PoolState) (now : Nat) (t : String) (rm : Option String)
    (sid : String) :
    ((trySelectFromStickySession s now t rm sid).1.pools = s.pools ∧
      (trySelectFromStickySession s now t rm sid).1.maxErrorCount = s.maxErrorCount) ∧
    (∀ cfg, (trySelectFromStickySession s now t rm sid).2 = some cfg →
      cfg ∈ poolOf s t ∧ cfg.isHealthy = true) := by
  unfold trySelectFromStickySession
  split
  · exact ⟨⟨rfl, rfl⟩, by intro cfg hcfg; simp at hcfg⟩
  · next session _ =>
    split
    · exact ⟨⟨rfl, rfl⟩, by intro cfg hcfg; simp at hcfg⟩
    · split
      · exact ⟨⟨rfl, rfl⟩, by intro cfg hcfg; simp at hcfg⟩
      · split
        · exact ⟨⟨rfl, rfl⟩, by intro cfg hcfg; simp at hcfg⟩
        · next provider hfind =>
          split
          · exact ⟨⟨rfl, rfl⟩, by intro cfg hcfg; simp at hcfg⟩
          · next hHealthy =>
            have hmem : provider ∈ poolOf s t := findProvider_mem hfind
            have hh : provider.isHealthy = true := by
              simp only [Bool.not_eq_true] at hHealthy
              cases hb : provider.isHealthy
              · exact absurd
                  (show provider.isHealthy = false ∨ provider.isDisabled = true from Or.inl hb)
                  hHealthy
              · rfl
            split
            · split
              · exact ⟨⟨rfl, rfl⟩, by intro cfg hcfg; simp at hcfg⟩
              · exact ⟨⟨rfl, rfl⟩, by intro cfg hcfg; cases hcfg; exact ⟨hmem, hh⟩⟩
            · exact ⟨⟨rfl, rfl⟩, by intro cfg hcfg; cases hcfg; exact ⟨hmem, hh⟩⟩

theorem pickFirstMin_aux_mem {l : List (Nat × Cred)} :
    ∀ {acc e}, l.foldl pickStep acc = some e → acc = some e ∨ e ∈ l := by
  induction l with
  | nil => intro acc e h; exact Or.inl h
  | cons x xs ih =>
    intro acc e h
    rw [List.foldl_cons] at h
    rcases ih h with hstep | hmem
    · match acc with
      | none =>
        have hx : some x = some e := hstep
        cases hx
        exact Or.inr (List.mem_cons_self ..)
      | some b =>
        by_cases hk : keyLt (credKey x.2) (credKey b.2) = true
        · have hx : (if keyLt (credKey x.2) (credKey b.2) = true then some x else some b) =
              some e := hstep
          rw [if_pos hk] at hx
          cases hx
          exact Or.inr (List.mem_cons_self ..)
        · have hx : (if keyLt (credKey x.2) (credKey b.2) = true then some x else some b) =
              some e := hstep
          rw [if_neg hk] at hx
          exact Or.inl hx
    · exact Or.inr (List.mem_cons_of_mem _ hmem)

theorem pickFirstMin_mem {l : List (Nat × Cred)} {e : Nat × Cred}
    (h : pickFirstMin l = some e) : e ∈ l := by
  rcases pickFirstMin_aux_mem h with h | h
  · exact absurd h (by simp)
  · exact h

theorem lruCandidates_mem {s : PoolState} {t : String} {rm : Option String} {i : Nat}
    {c : Cred} (h : (i, c) ∈ lruCandidates s t rm) :
    c ∈ poolOf s t ∧ credEligible c = true := by
  unfold lruCandidates at h
  have hm := List.mem_of_mem_filter h
  have hp := List.of_mem_filter h
  simp only [decide_eq_true_eq] at hp
  refine ⟨?_, hp.1⟩
  have hget := List.mem_enum_iff_getElem?.mp hm
  simp only at hget
  exact List.getElem?_mem hget

theorem invState_setCredAt {m : Nat} {s : PoolState} {t : String} {i : Nat} {c : Cred}
    (h : invState m s) (hc : credInv m c) : invState m (setCredAt s t i c) := by
  refine invState_setPool h ?_
  intro x hx
  rcases List.mem_or_eq_of_mem_set hx with hx | rfl
  · exact invState_poolOf h t x hx
  · exact hc

theorem invState_of_eq {m : Nat} {s s' : PoolState} (hp : s'.pools = s.pools)
    (hm : s'.maxErrorCount = s.maxErrorCount) (h : invState m s) : invState m s' := by
  refine ⟨hm.trans h.1, ?_⟩
  rw [hp]
  exact h.2

theorem invState_lruSelect_fst {m : Nat} (s : PoolState) (now : Nat) (t : String)
    (rm : Option String) (sid : Option String) (skip ff : Bool) (h : invState m s) :
    invState m (lruSelect s now t rm sid skip ff).1 := by
  unfold lruSelect
  cases hpick : pickFirstMin (lruCandidates s t rm) with
  | none => exact h
  | some e =>
    obtain ⟨i, selected⟩ := e
    have hmem := lruCandidates_mem (pickFirstMin_mem hpick)
    have hinv : credInv m selected := invState_poolOf h t selected hmem.1
    have hhealthy : selected.isHealthy = true := by
      have helig := hmem.2
      unfold credEligible at helig
      simp only [Bool.and_eq_true, decide_eq_true_eq] at helig
      exact helig.1
    have hinv' :
        credInv m { selected with lastUsed := some now, usageCount := selected.usageCount + 1 } := by
      intro hle
      simp only at hle
      have hf := hinv hle
      rw [hhealthy] at hf
      exact absurd hf (by simp)
    have hs1 : invState m (lruStickyBind s now t sid ff selected.uuid) := by
      unfold lruStickyBind
      cases sid with
      | none => exact h
      | some sid' =>
        show invState m
          (if s.stickyEnabled = true ∧ ¬ ff = true then
            createStickySession s now sid' t selected.uuid
          else s)
        by_cases hc : s.stickyEnabled = true ∧ ¬ ff = true
        · rw [if_pos hc]
          exact invState_createStickySession _ _ _ _ h
        · rw [if_neg hc]
          exact h
    simp only [hpick]
    cases skip with
    | true => exact hs1
    | false => exact invState_debouncedSave (invState_setCredAt hs1 hinv')

theorem invState_selectProvider_fst {m : Nat} (s : PoolState) (now : Nat) (t : String)
    (rm : Option String) (sid : Option String) (skip ff : Bool) (h : invState m s) :
    invState m (selectProvider s now t rm sid skip ff).1 := by
  unfold selectProvider
  split
  · exact h
  · cases hsid : (if s.stickyEnabled then sid else none) with
    | none => exact invState_lruSelect_fst _ _ _ _ _ _ _ h
    | some sid' =>
      have hts := trySelect_spec s now t rm sid'
      have hs1 : invState m (trySelectFromStickySession s now t rm sid').1 :=
        invState_of_eq hts.1.1 hts.1.2 h
      simp only [hsid]
      cases htry : (trySelectFromStickySession s now t rm sid').2 with
      | none => exact invState_lruSelect_fst _ _ _ _ _ _ _ hs1
      | some cfg =>
        have hcfg := hts.2 cfg htry
        have hinvc : credInv m cfg := invState_poolOf h t cfg hcfg.1
        have hinv' :
            credInv m { cfg with lastUsed := some now, usageCount := cfg.usageCount + 1 } := by
          intro hle
          simp only at hle
          have hf := hinvc hle
          rw [hcfg.2] at hf
          exact absurd hf (by simp)
        have hs2 : invState m (updateStickySessionAccess
            (trySelectFromStickySession s now t rm sid').1 now sid') :=
          invState_updateStickySessionAccess _ _ hs1
        cases skip with
        | true => exact hs2
        | false =>
          exact invState_debouncedSave (invState_updateCred hs2 (fun c _ _ => hinv'))

theorem invState_healthStep {m : Nat} (hm : 1 ≤ m) (probe : String → Cred → ProbeOutcome)
    (now : Nat) (s : PoolState) (t : String) (i : Nat) (h : invState m s) :
    invState m (healthStep probe now s t i).1 := by
  cases hget : (poolOf s t)[i]? with
  | none =>
    have heq : (healthStep probe now s t i).1 = s := by
      simp [healthStep, hget]
    rw [heq]
    exact h
  | some c =>
    by_cases hA : c.isHealthy = true
    · have heq : (healthStep probe now s t i).1 = s := by
        simp [healthStep, hget, hA]
      rw [heq]
      exact h
    · by_cases hB : healthSkipRecent now c = true
      · have heq : (healthStep probe now s t i).1 = s := by
          simp [healthStep, hget, hA, hB]
        rw [heq]
        exact h
      · by_cases hC : c.checkHealth = true
        · cases hp : probe t c with
          | ok modelName =>
            have heq : (healthStep probe now s t i).1 =
                markProviderHealthy s now t c.uuid true modelName := by
              simp [healthStep, hget, hA, hB, hC, hp]
            rw [heq]
            exact invState_markProviderHealthy hm _ _ _ _ _ h
          | exn message =>
            have heq : (healthStep probe now s t i).1 =
                markProviderUnhealthy s now t c.uuid (some message) := by
              simp [healthStep, hget, hA, hB, hC, hp]
            rw [heq]
            exact invState_markProviderUnhealthy _ _ _ _ h
          | fail modelName errorMessage =>
            have h1 : invState m (markProviderUnhealthy s now t c.uuid errorMessage) :=
              invState_markProviderUnhealthy _ _ _ _ h
            cases modelName with
            | some mn =>
              cases hget2 :
                  (poolOf (markProviderUnhealthy s now t c.uuid errorMessage) t)[i]? with
              | none =>
                have heq : (healthStep probe now s t i).1 =
                    markProviderUnhealthy s now t c.uuid errorMessage := by
                  simp [healthStep, hget, hA, hB, hC, hp, hget2]
                rw [heq]
                exact h1
              | some c2 =>
                have heq : (healthStep probe now s t i).1 =
                    setCredAt (markProviderUnhealthy s now t c.uuid errorMessage) t i
                      { c2 with
                        lastHealthCheckTime := some now
                        lastHealthCheckModel := some mn } := by
                  simp [healthStep, hget, hA, hB, hC, hp, hget2]
                rw [heq]
                refine invState_setCredAt h1 ?_
                have hinv2 : credInv m c2 :=
                  invState_poolOf h1 t c2 (List.getElem?_mem hget2)
                intro hle
                simp only at hle
                exact hinv2 hle
            | none =>
            cases hget2 :
                (poolOf (markProviderUnhealthy s now t c.uuid errorMessage) t)[i]? with
            | none =>
              have heq : (healthStep probe now s t i).1 =
                  markProviderUnhealthy s now t c.uuid errorMessage := by
                simp [healthStep, hget, hA, hB, hC, hp, hget2]
              rw [heq]
              exact h1
            | some c2 =>
              have heq : (healthStep probe now s t i).1 =
                  setCredAt (markProviderUnhealthy s now t c.uuid errorMessage) t i
                    { c2 with lastHealthCheckTime := some now } := by
                simp [healthStep, hget, hA, hB, hC, hp, hget2]
              rw [heq]
              refine invState_setCredAt h1 ?_
              have hinv2 : credInv m c2 :=
                invState_poolOf h1 t c2 (List.getElem?_mem hget2)
              intro hle
              simp only at hle
              exact hinv2 hle
        · have heq : (healthStep probe now s t i).1 = resetProviderCounters s t c.uuid := by
            simp [healthStep, hget, hA, hB, hC]
          rw [heq]
          exact invState_resetProviderCounters hm _ _ h

theorem invState_performHealthChecks_fst {m : Nat} (hm : 1 ≤ m)
    (probe : String → Cred → ProbeOutcome) (now : Nat) (s : PoolState) (h : invState m s) :
    invState m (performHealthChecks probe now s).1 := by
  unfold performHealthChecks
  generalize ((s.pools.map (fun p => (p.1, p.2.length))).flatMap
    (fun p => (List.range p.2).map (fun i => (p.1, i)))) = steps
  have main : ∀ (steps : List (String × Nat)) (acc : PoolState × List (String × String)),
      invState m acc.1 →
      invState m (steps.foldl (fun acc step =>
        let r := healthStep probe now acc.1 step.1 step.2
        (r.1, acc.2 ++ r.2.toList)) acc).1 := by
    intro steps
    induction steps with
    | nil => intro acc hacc; exact hacc
    | cons hd tl ih =>
      intro acc hacc
      rw [List.foldl_cons]
      exact ih _ (invState_healthStep hm probe now acc.1 hd.1 hd.2 hacc)
  exact main steps (s, []) h

/-- The operations of the claim, as a small step language (probe outcomes of a
health-check sweep are data of the step). -/
inductive PoolOp where
  | opSelect (now : Nat) (providerType : String) (requestedModel : Option String)
      (sessionId : Option String) (skipUsageCount isFromFallback : Bool)
  | opMarkUnhealthy (now : Nat) (t u : String) (msg : Option String)
  | opMarkUnhealthyImmediately (now : Nat) (t u : String) (msg : Option String)
  | opMarkHealthy (now : Nat) (t u : String) (resetUsage : Bool) (hcModel : Option String)
  | opResetCounters (t u : String)
  | opDisable (t u : String)
  | opEnable (t u : String)
  | opHealthChecks (probe : String → Cred → ProbeOutcome) (now : Nat)

/-- One pool-manager operation as a state transformer. -/
def applyOp (s : PoolState) : PoolOp → PoolState
  | .opSelect now t rm sid skip ff => (selectProvider s now t rm sid skip ff).1
  | .opMarkUnhealthy now t u msg => markProviderUnhealthy s now t u msg
  | .opMarkUnhealthyImmediately now t u msg => markProviderUnhealthyImmediately s now t u msg
  | .opMarkHealthy now t u resetUsage hcModel => markProviderHealthy s now t u resetUsage hcModel
  | .opResetCounters t u => resetProviderCounters s t u
  | .opDisable t u => disableProvider s t u
  | .opEnable t u => enableProvider s t u
  | .opHealthChecks probe now => (performHealthChecks probe now s).1

/-- The initial-config-side invariant: the pool file data already satisfies the
implication that `initializeProviderStatus` will preserve verbatim. -/
def rawInv (m : Nat) (rawPools : List (String × List RawCred)) : Prop :=
  ∀ p ∈ rawPools, ∀ r ∈ p.2, m ≤ r.errorCount.getD 0 → r.isHealthy.getD true = false

/-- C2 amended: provided `maxErrorCount ≥ 1` and the initial pool configs
already satisfy `errorCount ≥ maxErrorCount → ¬isHealthy` (fresh configs do,
since they get `errorCount = 0`), the invariant holds after
`initializeProviderStatus` and is preserved by every sequence of
`selectProvider`, `markProviderUnhealthy`, `markProviderUnhealthyImmediately`,
`markProviderHealthy`, `resetProviderCounters`, `disableProvider`,
`enableProvider` and `performHealthChecks`.  (The proviso is needed:
`initializeProviderStatus` keeps pre-set `isHealthy`/`errorCount` fields
verbatim, see the counterexample.) -/
theorem c2_error_count_invariant (m : Nat) (hm : 1 ≤ m) :
    (∀ (rawPools : List (String × List RawCred)) (mEC : Option Nat) (se : Bool)
      (ttl mx : Option Nat) (fc : List (String × List String))
      (mp : List (String × (String × String))),
      mEC.getD 3 = m → rawInv m rawPools →
      invState m (initPoolState rawPools mEC se ttl mx fc mp)) ∧
    (∀ (s : PoolState) (op : PoolOp), invState m s → invState m (applyOp s op)) ∧
    (∀ (s : PoolState) (ops : List PoolOp), invState m s →
      invState m (ops.foldl applyOp s)) := by
  have hstep : ∀ (s : PoolState) (op : PoolOp), invState m s → invState m (applyOp s op) := by
    intro s op h
    cases op with
    | opSelect now t rm sid skip ff => exact invState_selectProvider_fst _ _ _ _ _ _ _ h
    | opMarkUnhealthy now t u msg => exact invState_markProviderUnhealthy _ _ _ _ h
    | opMarkUnhealthyImmediately now t u msg =>
      exact invState_markProviderUnhealthyImmediately _ _ _ _ h
    | opMarkHealthy now t u resetUsage hcModel =>
      exact invState_markProviderHealthy hm _ _ _ _ _ h
    | opResetCounters t u => exact invState_resetProviderCounters hm _ _ h
    | opDisable t u => exact invState_disableProvider _ _ h
    | opEnable t u => exact invState_enableProvider _ _ h
    | opHealthChecks probe now => exact invState_performHealthChecks_fst hm probe now s h
  refine ⟨?_, hstep, ?_⟩
  · intro rawPools mEC se ttl mx fc mp hres hraw
    refine ⟨hres, ?_⟩
    intro p hp c hc
    unfold initPoolState at hp
    simp only at hp
    rcases List.mem_map.mp hp with ⟨q, hq, rfl⟩
    simp only at hc
    rcases List.mem_map.mp hc with ⟨r, hr, rfl⟩
    intro hle
    exact hraw q hq r hr (by simpa [initCred] using hle)
  · intro s ops h
    induction ops generalizing s with
    | nil => exact h
    | cons op rest ih => exact ih _ (hstep s op h)

/-- A raw pool-file credential that already violates the invariant
(`isHealthy: true` with `errorCount: 3`). -/
def rawBad : RawCred :=
  { uuid := "bad", isHealthy := some true, isDisabled := some false, lastUsed := none,
    usageCount := some 7, errorCount := some 3, lastErrorTime := none,
    lastHealthCheckTime := none, lastHealthCheckModel := none, lastErrorMessage := none,
    notSupportedModels := none, checkHealth := false, customName := none }

/-- C2 counterexample: constructing the manager (default `maxErrorCount = 3`)
over a pool whose stored config says `isHealthy: true, errorCount: 3` — as a
pool file written under a larger `maxErrorCount`, or hand-edited, can —
leaves `errorCount ≥ maxErrorCount ∧ isHealthy` standing after
`initializeProviderStatus`: the operation named by the claim does not
re-establish the invariant, refuting the claim as stated. -/
theorem c2_counterexample :
    ¬ invState 3 (initPoolState [("claude-kiro-oauth", [rawBad])] none false
      none none [] []) := by
  unfold invState
  decide

/-- C2 witness: a concrete run — initialise a fresh pool, mark a credential
unhealthy immediately, recover it, run a health sweep — keeps the invariant. -/
theorem c2_error_count_invariant_witness :
    invState 3 (([PoolOp.opMarkUnhealthyImmediately 100 "claude-kiro-oauth" "a" (some "test"),
        PoolOp.opMarkHealthy 200 "claude-kiro-oauth" "a" true (some "claude-haiku-4-5"),
        PoolOp.opHealthChecks (fun _ _ => ProbeOutcome.ok none) 300,
        PoolOp.opSelect 400 "claude-kiro-oauth" none none false false]).foldl
      applyOp poolState1) :=
  (c2_error_count_invariant 3 (by decide)).2.2 poolState1 _ (by unfold invState; decide)

/-! ## C10: sticky-session capacity -/

theorem stickyDelete_length_le (s : PoolState) (sid : String) :
    (stickyDelete s sid).stickyMap.length ≤ s.stickyMap.length :=
  List.length_filter_le _ _

theorem stickySet_length_le (s : PoolState) (sid : String) (sess : Session) :
    (stickySet s sid sess).stickyMap.length ≤ s.stickyMap.length + 1 := by
  unfold stickySet
  split
  · simp
  · simp

theorem firstMinByAccess_exists {l : List (String × Session)} {k : String}
    (h : firstMinByAccess l = some k) : ∃ e ∈ l, e.1 = k := by
  unfold firstMinByAccess at h
  rcases Option.map_eq_some'.mp h with ⟨e, he, rfl⟩
  suffices haux : ∀ (l : List (String × Session)) (acc : Option (String × Session)) e,
      l.foldl (fun acc e => match acc with
        | none => some e
        | some b => if e.2.lastAccessedAt < b.2.lastAccessedAt then some e else acc) acc =
        some e → acc = some e ∨ e ∈ l by
    rcases haux l none e he with h | h
    · exact absurd h (by simp)
    · exact ⟨e, h, rfl⟩
  intro l
  induction l with
  | nil => intro acc e h; exact Or.inl h
  | cons x xs ih =>
    intro acc e h
    rw [List.foldl_cons] at h
    rcases ih _ _ h with hstep | hmem
    · match acc with
      | none =>
        have hx : some x = some e := hstep
        cases hx
        exact Or.inr (List.mem_cons_self ..)
      | some b =>
        by_cases hk : x.2.lastAccessedAt < b.2.lastAccessedAt
        · have hx : (if x.2.lastAccessedAt < b.2.lastAccessedAt then some x else some b) =
              some e := hstep
          rw [if_pos hk] at hx
          cases hx
          exact Or.inr (List.mem_cons_self ..)
        · have hx : (if x.2.lastAccessedAt < b.2.lastAccessedAt then some x else some b) =
              some e := hstep
          rw [if_neg hk] at hx
          exact Or.inl hx
    · exact Or.inr (List.mem_cons_of_mem _ hmem)

theorem evictOnce_length_lt {s : PoolState} (h : s.stickyMap ≠ []) :
    (evictOnce s).stickyMap.length < s.stickyMap.length := by
  unfold evictOnce
  cases hmin : firstMinByAccess s.stickyMap with
  | none =>
    obtain ⟨e, hne⟩ := List.exists_mem_of_ne_nil _ h
    unfold firstMinByAccess at hmin
    rcases Option.map_eq_none'.mp hmin with hfold
    exfalso
    revert hfold
    have : ∀ (l : List (String × Session)) (acc : Option (String × Session)), acc ≠ none ∨ l ≠ [] →
        l.foldl (fun acc e => match acc with
          | none => some e
          | some b => if e.2.lastAccessedAt < b.2.lastAccessedAt then some e else acc) acc ≠
          none := by
      intro l
      induction l with
      | nil =>
        intro acc hacc
        rcases hacc with hacc | hacc
        · exact hacc
        · exact absurd rfl hacc
      | cons x xs ih =>
        intro acc _
        rw [List.foldl_cons]
        refine ih _ (Or.inl ?_)
        cases acc with
        | none => simp
        | some b =>
          show (if x.2.lastAccessedAt < b.2.lastAccessedAt then some x else some b) ≠ none
          split <;> simp
    exact this s.stickyMap none (Or.inr h)
  | some k =>
    obtain ⟨e, hmem, hek⟩ := firstMinByAccess_exists hmin
    unfold stickyDelete
    simp only
    refine List.length_filter_lt_length_iff_exists.mpr ?_
    exact ⟨e, hmem, by simp [hek]⟩

theorem evictOldestSessions_length_le (n : Nat) (s : PoolState) :
    (evictOldestSessions s n).stickyMap.length ≤ s.stickyMap.length := by
  induction n generalizing s with
  | zero => exact le_rfl
  | succ k ih =>
    calc (evictOldestSessions (evictOnce s) k).stickyMap.length
        ≤ (evictOnce s).stickyMap.length := ih _
      _ ≤ s.stickyMap.length := by
          unfold evictOnce
          cases firstMinByAccess s.stickyMap
          · exact le_rfl
          · exact stickyDelete_length_le _ _

theorem createStickySession_length_le {s : PoolState} (h10 : 10 ≤ s.stickyMaxSessions)
    (hlen : s.stickyMap.length ≤ s.stickyMaxSessions) (now : Nat) (sid t u : String) :
    (createStickySession s now sid t u).stickyMap.length ≤ s.stickyMaxSessions := by
  unfold createStickySession
  by_cases hfull : s.stickyMaxSessions ≤ s.stickyMap.length
  · rw [if_pos hfull]
    have hne : s.stickyMap ≠ [] := by
      intro hnil
      rw [hnil] at hfull
      simp at hfull
      omega
    have hdiv : 1 ≤ s.stickyMaxSessions / 10 := (Nat.one_le_div_iff (by omega)).mpr h10
    have hev : (evictOldestSessions s (s.stickyMaxSessions / 10)).stickyMap.length <
        s.stickyMap.length := by
      obtain ⟨k, hk⟩ := Nat.exists_eq_add_of_le hdiv
      rw [hk]
      calc (evictOldestSessions s (1 + k)).stickyMap.length
          = (evictOldestSessions (evictOnce s) k).stickyMap.length := by
            rw [Nat.add_comm 1 k]
            rfl
        _ ≤ (evictOnce s).stickyMap.length := evictOldestSessions_length_le _ _
        _ < s.stickyMap.length := evictOnce_length_lt hne
    calc (stickySet (evictOldestSessions s (s.stickyMaxSessions / 10)) sid
            { providerType := t, providerUuid := u, createdAt := now, lastAccessedAt := now,
              requestCount := 1 }).stickyMap.length
        ≤ (evictOldestSessions s (s.stickyMaxSessions / 10)).stickyMap.length + 1 :=
          stickySet_length_le _ _ _
      _ ≤ s.stickyMap.length := hev
      _ ≤ s.stickyMaxSessions := hlen
  · rw [if_neg hfull]
    calc (stickySet s sid _).stickyMap.length ≤ s.stickyMap.length + 1 :=
          stickySet_length_le _ _ _
      _ ≤ s.stickyMaxSessions := by omega

theorem updateStickySessionAccess_length (s : PoolState) (now : Nat) (sid : String) :
    (updateStickySessionAccess s now sid).stickyMap.length = s.stickyMap.length := by
  unfold updateStickySessionAccess
  cases hget : stickyGet s sid with
  | none => rfl
  | some sess =>
    have hfound : (s.stickyMap.find? (fun e => e.1 = sid)).isSome = true := by
      unfold stickyGet at hget
      rcases Option.map_eq_some'.mp hget with ⟨e, he, _⟩
      simp [he]
    show (stickySet s sid
      { sess with lastAccessedAt := now, requestCount := sess.requestCount + 1 }).stickyMap.length =
      s.stickyMap.length
    unfold stickySet
    rw [if_pos hfound]
    simp

theorem trySelect_fst_sticky (s : PoolState) (now : Nat) (t : String) (rm : Option String)
    (sid : String) :
    (trySelectFromStickySession s now t rm sid).1.stickyMap.length ≤ s.stickyMap.length ∧
    (trySelectFromStickySession s now t rm sid).1.stickyMaxSessions = s.stickyMaxSessions := by
  unfold trySelectFromStickySession
  split
  · exact ⟨le_rfl, rfl⟩
  · split
    · exact ⟨stickyDelete_length_le _ _, rfl⟩
    · split
      · exact ⟨le_rfl, rfl⟩
      · split
        · exact ⟨stickyDelete_length_le _ _, rfl⟩
        · split
          · exact ⟨stickyDelete_length_le _ _, rfl⟩
          · split
            · split
              · exact ⟨le_rfl, rfl⟩
              · exact ⟨le_rfl, rfl⟩
            · exact ⟨le_rfl, rfl⟩

theorem lruSelect_sticky_bound {s : PoolState} (h10 : 10 ≤ s.stickyMaxSessions)
    (hlen : s.stickyMap.length ≤ s.stickyMaxSessions) (now : Nat) (t : String)
    (rm sid : Option String) (skip ff : Bool) :
    (lruSelect s now t rm sid skip ff).1.stickyMap.length ≤ s.stickyMaxSessions := by
  unfold lruSelect
  cases hpick : pickFirstMin (lruCandidates s t rm) with
  | none => exact hlen
  | some e =>
    obtain ⟨i, selected⟩ := e
    have hb : (lruStickyBind s now t sid ff selected.uuid).stickyMap.length ≤
        s.stickyMaxSessions := by
      unfold lruStickyBind
      cases sid with
      | none => exact hlen
      | some sid' =>
        show (if s.stickyEnabled = true ∧ ¬ ff = true then
            createStickySession s now sid' t selected.uuid
          else s).stickyMap.length ≤ s.stickyMaxSessions
        by_cases hc : s.stickyEnabled = true ∧ ¬ ff = true
        · rw [if_pos hc]
          exact createStickySession_length_le h10 hlen now sid' t selected.uuid
        · rw [if_neg hc]
          exact hlen
    simp only [hpick]
    cases skip with
    | true => exact hb
    | false => exact hb

theorem selectProvider_sticky_bound {s : PoolState} (h10 : 10 ≤ s.stickyMaxSessions)
    (hlen : s.stickyMap.length ≤ s.stickyMaxSessions) (now : Nat) (t : String)
    (rm sid : Option String) (skip ff : Bool) :
    (selectProvider s now t rm sid skip ff).1.stickyMap.length ≤ s.stickyMaxSessions := by
  unfold selectProvider
  split
  · exact hlen
  · cases hsid : (if s.stickyEnabled then sid else none) with
    | none => exact lruSelect_sticky_bound h10 hlen now t rm sid skip ff
    | some sid' =>
      simp only [hsid]
      have hts := trySelect_fst_sticky s now t rm sid'
      cases htry : (trySelectFromStickySession s now t rm sid').2 with
      | some cfg =>
        have hupd := updateStickySessionAccess_length
          (trySelectFromStickySession s now t rm sid').1 now sid'
        have hle : (updateStickySessionAccess
            (trySelectFromStickySession s now t rm sid').1 now sid').stickyMap.length ≤
            s.stickyMaxSessions := by
          rw [hupd]
          exact le_trans hts.1 hlen
        cases skip with
        | true => exact hle
        | false => exact hle
      | none =>
        have h10' : 10 ≤ (trySelectFromStickySession s now t rm sid').1.stickyMaxSessions := by
          rw [hts.2]; exact h10
        have hlen' : (trySelectFromStickySession s now t rm sid').1.stickyMap.length ≤
            (trySelectFromStickySession s now t rm sid').1.stickyMaxSessions := by
          rw [hts.2]
          exact le_trans hts.1 hlen
        have := lruSelect_sticky_bound h10' hlen' now t rm sid skip ff
        rw [hts.2] at this
        exact this

/-- C10: (a) with `maxSessions ≥ 10` the sticky table never exceeds
`maxSessions` across `selectProvider` calls (the overflow path first evicts
`⌊maxSessions·0.1⌋ ≥ 1` least-recently-accessed sessions), and the manager
starts with an empty table; (b) for `maxSessions < 10` the eviction batch is
`⌊maxSessions·0.1⌋ = 0`, so inserting a fresh session into a full table grows
it beyond `maxSessions`. -/
theorem c10_sticky_session_capacity (s : PoolState) (now : Nat) (t : String)
    (rm sid : Option String) (skip ff : Bool) (sid2 u : String)
    (rawPools : List (String × List RawCred)) (mEC : Option Nat) (se : Bool)
    (ttl mx : Option Nat) (fc : List (String × List String))
    (mp : List (String × (String × String))) :
    (10 ≤ s.stickyMaxSessions → s.stickyMap.length ≤ s.stickyMaxSessions →
      (selectProvider s now t rm sid skip ff).1.stickyMap.length ≤ s.stickyMaxSessions) ∧
    (initPoolState rawPools mEC se ttl mx fc mp).stickyMap.length = 0 ∧
    (s.stickyMaxSessions < 10 → s.stickyMaxSessions ≤ s.stickyMap.length →
      stickyGet s sid2 = none →
      (createStickySession s now sid2 t u).stickyMap.length = s.stickyMap.length + 1 ∧
      s.stickyMaxSessions < (createStickySession s now sid2 t u).stickyMap.length) := by
  refine ⟨fun h10 hlen => selectProvider_sticky_bound h10 hlen now t rm sid skip ff, rfl, ?_⟩
  intro hsmall hfull hnew
  have hdiv : s.stickyMaxSessions / 10 = 0 := Nat.div_eq_of_lt hsmall
  have habs : (s.stickyMap.find? (fun e => e.1 = sid2)).isSome = false := by
    unfold stickyGet at hnew
    simp only [Option.map_eq_none'] at hnew
    simp [hnew]
  have hgrow : (createStickySession s now sid2 t u).stickyMap.length =
      s.stickyMap.length + 1 := by
    unfold createStickySession
    rw [if_pos hfull, hdiv]
    show (stickySet s sid2 _).stickyMap.length = s.stickyMap.length + 1
    unfold stickySet
    rw [if_neg (by simp [habs])]
    simp
  exact ⟨hgrow, by omega⟩

/-- A sticky-enabled variant of `poolState1` with `maxSessions = 10`. -/
def poolState1Sticky : PoolState :=
  { poolState1 with stickyEnabled := true, stickyMaxSessions := 10 }

/-- A sticky-enabled pool with `maxSessions = 5` and a full session table. -/
def poolState1Full : PoolState :=
  { poolState1 with
    stickyEnabled := true
    stickyMaxSessions := 5
    stickyMap := [("s1", ⟨"claude-kiro-oauth", "a", 1, 1, 1⟩),
      ("s2", ⟨"claude-kiro-oauth", "a", 2, 2, 1⟩),
      ("s3", ⟨"claude-kiro-oauth", "a", 3, 3, 1⟩),
      ("s4", ⟨"claude-kiro-oauth", "a", 4, 4, 1⟩),
      ("s5", ⟨"claude-kiro-oauth", "a", 5, 5, 1⟩)] }

/-- C10 witness: a concrete state at the boundary — `maxSessions = 5` (< 10),
table full with 5 sessions, inserting a new session id yields 6 > 5; and a
concrete `selectProvider` call under `maxSessions = 10` stays within bounds. -/
theorem c10_sticky_session_capacity_witness :
    (selectProvider poolState1Sticky 7
        "claude-kiro-oauth" none (some "S1") false false).1.stickyMap.length ≤ 10 ∧
    (createStickySession poolState1Full 7 "s6" "claude-kiro-oauth"
        "a").stickyMap.length = 5 + 1 :=
  ⟨(c10_sticky_session_capacity poolState1Sticky 7 "claude-kiro-oauth" none (some "S1") false
      false "" "" [] none false none none [] []).1 (by decide) (by decide),
   ((c10_sticky_session_capacity poolState1Full 7 "claude-kiro-oauth" none none false false
      "s6" "a" [] none false none none [] []).2.2 (by decide) (by decide) (by decide)).1⟩

/-! ## C6: sticky-session failure handling -/

/-- A session bound to a different provider type than the one requested below. -/
def sessB : Session :=
  { providerType := "claude-custom", providerUuid := "b", createdAt := 0,
    lastAccessedAt := 1000, requestCount := 1 }

/-- A sticky-enabled pool whose session `"S1"` is bound to `claude-custom`. -/
def poolStateMismatch : PoolState :=
  { poolState1 with stickyEnabled := true, stickyMap := [("S1", sessB)] }

/-- C6 counterexample: session `"S1"` is bound to provider type
`claude-custom`; a (non-expired) sticky lookup for type `claude-kiro-oauth`
returns `null` — falling back to LRU — but does **not** delete the binding
(the `session.providerType !== providerType` branch has no
`stickySessionMap.delete`), refuting the claim that a provider-type mismatch
deletes the binding. -/
theorem c6_counterexample :
    trySelectFromStickySession poolStateMismatch 1000 "claude-kiro-oauth" none "S1" =
      (poolStateMismatch, none) ∧
    stickyGet poolStateMismatch "S1" = some sessB := by
  constructor
  · decide
  · decide

/-- C6 amended: with a bound session, the sticky path deletes the binding on
TTL expiry, on a missing credential, and on an unhealthy or disabled
credential; it keeps the binding (returning `null`, so only this call falls
back to LRU) on a provider-type mismatch and on a model-support miss. -/
theorem c6_sticky_failure_handling (s : PoolState) (now : Nat) (t : String)
    (rm : Option String) (sid : String) (sess : Session)
    (hbound : stickyGet s sid = some sess) :
    (s.stickyTtlMs < now - sess.lastAccessedAt →
      trySelectFromStickySession s now t rm sid = (stickyDelete s sid, none)) ∧
    (¬ s.stickyTtlMs < now - sess.lastAccessedAt → ¬ sess.providerType = t →
      trySelectFromStickySession s now t rm sid = (s, none)) ∧
    (¬ s.stickyTtlMs < now - sess.lastAccessedAt → sess.providerType = t →
      findProvider s t sess.providerUuid = none →
      trySelectFromStickySession s now t rm sid = (stickyDelete s sid, none)) ∧
    (∀ c, ¬ s.stickyTtlMs < now - sess.lastAccessedAt → sess.providerType = t →
      findProvider s t sess.providerUuid = some c →
      (c.isHealthy = false ∨ c.isDisabled = true) →
      trySelectFromStickySession s now t rm sid = (stickyDelete s sid, none)) ∧
    (∀ c m', ¬ s.stickyTtlMs < now - sess.lastAccessedAt → sess.providerType = t →
      findProvider s t sess.providerUuid = some c →
      c.isHealthy = true → c.isDisabled = false → rm = some m' →
      (c.notSupportedModels.getD []).contains m' = true →
      trySelectFromStickySession s now t rm sid = (s, none)) := by
  refine ⟨?_, ?_, ?_, ?_, ?_⟩
  · intro hexp
    unfold trySelectFromStickySession
    rw [hbound]
    simp [hexp]
  · intro hexp hmt
    unfold trySelectFromStickySession
    rw [hbound]
    simp [hexp, hmt]
  · intro hexp hmt hfind
    unfold trySelectFromStickySession
    rw [hbound]
    simp [hexp, hmt, hfind]
  · intro c hexp hmt hfind hbad
    unfold trySelectFromStickySession
    rw [hbound]
    simp only [hexp, hmt, hfind]
    simp [hexp, hmt, hfind]
    rcases hbad with hbad | hbad <;> simp [hbad]
  · intro c m' hexp hmt hfind hh hd hrm hns
    subst hrm
    unfold trySelectFromStickySession
    rw [hbound]
    simp [hexp, hmt, hfind, hh, hd, hns]
    exact List.mem_of_elem_eq_true hns

/-- C6 witness: a TTL-expired binding is dropped on access. -/
theorem c6_sticky_failure_handling_witness :
    trySelectFromStickySession poolStateMismatch 2000000 "claude-kiro-oauth" none "S1" =
      (stickyDelete poolStateMismatch "S1", none) :=
  (c6_sticky_failure_handling poolStateMismatch 2000000 "claude-kiro-oauth" none "S1" sessB
    (by decide)).1 (by decide)

/-! ## C7: fallback protocol compatibility -/

theorem fallbackTier1_protocol (pm : String → List String) (now : Nat) (t m : String)
    (sid : Option String) (skip : Bool) :
    ∀ (lst : List String) (tried : List String) (s : PoolState) (r : FallbackResult),
      (fallbackTier1 pm s now t (some m) sid skip tried lst).2 = some r →
      r.actualModel = none ∧
      (r.isFallback = true → protocolPrefixOf r.actualProviderType = protocolPrefixOf t) := by
  intro lst
  induction lst with
  | nil => intro tried s r h; simp [fallbackTier1] at h
  | cons ct rest ih =>
    intro tried s r h
    unfold fallbackTier1 at h
    by_cases htried : tried.contains ct = true
    · rw [if_pos htried] at h
      exact ih _ _ _ h
    · rw [if_neg htried] at h
      by_cases hpool : (poolOf s ct).isEmpty = true
      · rw [if_pos hpool] at h
        exact ih _ _ _ h
      · rw [if_neg hpool] at h
        by_cases hskip : (¬ ct = t ∧
            (¬ protocolPrefixOf t = protocolPrefixOf ct ∨
              (¬ (pm ct).isEmpty ∧ ¬ (pm ct).contains m)) : Bool) = true
        · rw [if_pos hskip] at h
          exact ih _ _ _ h
        · rw [if_neg hskip] at h
          split at h
          · cases h
            refine ⟨rfl, ?_⟩
            intro hfb
            simp only [decide_eq_true_eq] at hfb
            simp only [decide_eq_true_eq, not_and, not_or, Bool.not_eq_true] at hskip
            have := hskip hfb
            simp only [not_not] at this
            exact this.1.symm
          · exact ih _ _ _ h

theorem fallbackTier2Chain_actualModel (pm : String → List String) (now : Nat)
    (tt tm : String) (sid : Option String) (skip : Bool) :
    ∀ (lst : List String) (s : PoolState) (r : FallbackResult),
      (fallbackTier2Chain pm s now tt tm sid skip lst).2 = some r →
      r.actualModel = some tm := by
  intro lst
  induction lst with
  | nil => intro s r h; simp [fallbackTier2Chain] at h
  | cons ft rest ih =>
    intro s r h
    unfold fallbackTier2Chain at h
    split at h
    · exact ih _ _ h
    · split at h
      · exact ih _ _ h
      · split at h
        · cases h
          rfl
        · exact ih _ _ h

theorem fallbackTier2_actualModel (pm : String → List String) (now : Nat) (m : String)
    (sid : Option String) (skip : Bool) (s : PoolState) (r : FallbackResult)
    (h : (fallbackTier2 pm s now (some m) sid skip).2 = some r) :
    r.actualModel.isSome = true := by
  unfold fallbackTier2 at h
  repeat' split at h
  all_goals
    first
      | exact Option.noConfusion h
      | (cases h; rfl)
      | (rw [fallbackTier2Chain_actualModel pm now _ _ sid skip _ _ r h]; rfl)

/-- C7 amended: whenever `selectProviderWithFallback` is called with a
**non-null** `requestedModel` and returns `isFallback: true`, either the
`actualProviderType` has the same protocol prefix as the requested
`providerType`, or the result originates from the `modelFallbackMapping`
entry (it carries an `actualModel`).  With a null `requestedModel` the
protocol-prefix check is skipped entirely (see the counterexample). -/
theorem c7_fallback_protocol (pm : String → List String) (s : PoolState) (now : Nat)
    (t m : String) (sid : Option String) (skip : Bool) (r : FallbackResult)
    (h : (selectProviderWithFallback pm s now t (some m) sid skip).2 = some r)
    (hfb : r.isFallback = true) :
    protocolPrefixOf r.actualProviderType = protocolPrefixOf t ∨
      r.actualModel.isSome = true := by
  unfold selectProviderWithFallback at h
  split at h
  · simp at h
  · cases ht1 : (fallbackTier1 pm s now t (some m) sid skip []
        (t :: chainOf s t)).2 with
    | some r1 =>
      rw [ht1] at h
      cases h
      exact Or.inl ((fallbackTier1_protocol pm now t m sid skip _ _ _ _ ht1).2 hfb)
    | none =>
      rw [ht1] at h
      exact Or.inr (fallbackTier2_actualModel pm now m sid skip _ _ h)

/-- An unhealthy clone of `credA`. -/
def credAUnhealthy : Cred := { credA with isHealthy := false }

/-- A pool state whose `claude-kiro-oauth` pool is all-unhealthy and whose
fallback chain crosses protocols into `openai-custom`. -/
def poolStateCross : PoolState :=
  { pools := [("claude-kiro-oauth", [credAUnhealthy]), ("openai-custom", [credB])],
    maxErrorCount := 3, stickyEnabled := false, stickyTtlMs := 30 * 60 * 1000,
    stickyMaxSessions := 10000, stickyMap := [], pendingSaves := [],
    fallbackChain := [("claude-kiro-oauth", ["openai-custom"])], modelFallbackMapping := [] }

/-- C7 counterexample: with a **null** requested model, the chain loop skips
the protocol-prefix check (`currentType !== providerType && requestedModel`
fails), so a chain entry of a different protocol is selected with
`isFallback: true` and no model-mapping involvement — the claimed disjunction
is false at this input (`openai` vs `claude`). -/
theorem c7_counterexample :
    (selectProviderWithFallback (fun _ => []) poolStateCross 5 "claude-kiro-oauth" none none
        false).2 =
      some { config := { credB with lastUsed := some 5, usageCount := 1 },
             actualProviderType := "openai-custom", isFallback := true, actualModel := none } ∧
    ¬ protocolPrefixOf "openai-custom" = protocolPrefixOf "claude-kiro-oauth" := by
  constructor
  · decide
  · decide

/-- A same-protocol variant: the chain falls back to `claude-custom`. -/
def poolStateSame : PoolState :=
  { poolStateCross with
    pools := [("claude-kiro-oauth", [credAUnhealthy]), ("claude-custom", [credB])]
    fallbackChain := [("claude-kiro-oauth", ["claude-custom"])] }

/-- C7 witness: a same-protocol chain fallback with a requested model
satisfies the protocol-prefix disjunct. -/
theorem c7_fallback_protocol_witness :
    protocolPrefixOf "claude-custom" = protocolPrefixOf "claude-kiro-oauth" ∨
      (some "claude-3-7-sonnet-20250219" : Option String).isSome = true := by
  have h := c7_fallback_protocol (fun _ => []) poolStateSame 5 "claude-kiro-oauth"
    "m1" none false
    { config := { credB with lastUsed := some 5, usageCount := 1 },
      actualProviderType := "claude-custom", isFallback := true, actualModel := none }
    (by decide) (by decide)
  rcases h with h | h
  · exact Or.inl h
  · simp at h

/-! ## C3: LRU selection -/

theorem keyLt_iff (a b : Nat × Nat) :
    keyLt a b = true ↔ (a.1 < b.1 ∨ (a.1 = b.1 ∧ a.2 < b.2)) := by
  simp [keyLt]

theorem foldl_pickStep_min :
    ∀ (l : List (Nat × Cred)) (acc : Option (Nat × Cred)) (e : Nat × Cred),
      l.foldl pickStep acc = some e →
      (∀ x ∈ l, ¬ keyLt (credKey x.2) (credKey e.2) = true) ∧
      (∀ b, acc = some b → ¬ keyLt (credKey b.2) (credKey e.2) = true) := by
  intro l
  induction l with
  | nil =>
    intro acc e h
    refine ⟨by simp, ?_⟩
    intro b hb
    rw [hb] at h
    cases h
    rw [keyLt_iff]
    omega
  | cons x xs ih =>
    intro acc e h
    rw [List.foldl_cons] at h
    obtain ⟨ihl, ihacc⟩ := ih (pickStep acc x) e h
    have hx : ¬ keyLt (credKey x.2) (credKey e.2) = true := by
      cases acc with
      | none => exact ihacc x rfl
      | some b =>
        by_cases hk : keyLt (credKey x.2) (credKey b.2) = true
        · refine ihacc x ?_
          show (if keyLt (credKey x.2) (credKey b.2) = true then some x else some b) = some x
          rw [if_pos hk]
        · have hbe : ¬ keyLt (credKey b.2) (credKey e.2) = true := by
            refine ihacc b ?_
            show (if keyLt (credKey x.2) (credKey b.2) = true then some x else some b) = some b
            rw [if_neg hk]
          rw [keyLt_iff] at hk hbe ⊢
          omega
    refine ⟨?_, ?_⟩
    · intro y hy
      rcases List.mem_cons.mp hy with rfl | hy
      · exact hx
      · exact ihl y hy
    · intro b hb
      subst hb
      by_cases hk : keyLt (credKey x.2) (credKey b.2) = true
      · have hxe : ¬ keyLt (credKey x.2) (credKey e.2) = true := by
          refine ihacc x ?_
          show (if keyLt (credKey x.2) (credKey b.2) = true then some x else some b) = some x
          rw [if_pos hk]
        rw [keyLt_iff] at hk hxe ⊢
        omega
      · refine ihacc b ?_
        show (if keyLt (credKey x.2) (credKey b.2) = true then some x else some b) = some b
        rw [if_neg hk]

theorem pickFirstMin_isSome {l : List (Nat × Cred)} (h : l ≠ []) :
    (pickFirstMin l).isSome = true := by
  unfold pickFirstMin
  have aux : ∀ (l : List (Nat × Cred)) (acc : Option (Nat × Cred)),
      acc.isSome = true ∨ l ≠ [] → (l.foldl pickStep acc).isSome = true := by
    intro l
    induction l with
    | nil =>
      intro acc hacc
      rcases hacc with hacc | hacc
      · exact hacc
      · exact absurd rfl hacc
    | cons x xs ih =>
      intro acc _
      rw [List.foldl_cons]
      refine ih _ (Or.inl ?_)
      cases acc with
      | none => rfl
      | some b =>
        show (if keyLt (credKey x.2) (credKey b.2) = true then some x else some b).isSome = true
        split <;> rfl
  exact aux l none (Or.inr h)

theorem find?_map_setPool {t : String} {l : List Cred} :
    ∀ (ps : List (String × List Cred)),
      (ps.find? (fun p => p.1 = t)).isSome = true →
      ((ps.map (fun p => if p.1 = t then (p.1, l) else p)).find? (fun p => p.1 = t)) =
        some (t, l) := by
  intro ps
  induction ps with
  | nil => intro h; simp at h
  | cons q qs ih =>
    intro h
    by_cases hq : q.1 = t
    · simp only [List.map_cons, if_pos hq]
      rw [List.find?_cons_of_pos _ (by simp [hq])]
      rw [hq]
    · simp only [List.map_cons, if_neg hq]
      rw [List.find?_cons_of_neg _ (by simp [hq])]
      refine ih ?_
      rw [List.find?_cons_of_neg _ (by simp [hq])] at h
      exact h

theorem poolOf_setPool {s : PoolState} {t : String} {l : List Cred}
    (h : hasPool s t = true) : poolOf (setPool s t l) t = l := by
  unfold hasPool at h
  unfold poolOf setPool
  simp only
  rw [find?_map_setPool s.pools h]
  rfl

theorem poolOf_congr {s s' : PoolState} (h : s'.pools = s.pools) (t : String) :
    poolOf s' t = poolOf s t := by
  unfold poolOf
  rw [h]

theorem lruCandidates_congr {s s' : PoolState} (h : s'.pools = s.pools) (t : String)
    (rm : Option String) : lruCandidates s' t rm = lruCandidates s t rm := by
  unfold lruCandidates
  rw [poolOf_congr h]

theorem lruSelect_spec {s : PoolState} (now : Nat) (t : String) (rm : Option String)
    (sid : Option String) (ff : Bool) {i : Nat} {sel : Cred}
    (hpick : pickFirstMin (lruCandidates s t rm) = some (i, sel))
    (hpool : hasPool s t = true)
    (h3 : ∀ c ∈ poolOf s t, c.lastUsed.getD 0 ≤ now) :
    (lruSelect s now t rm sid false ff).2 =
      some { sel with lastUsed := some now, usageCount := sel.usageCount + 1 } ∧
    (∀ c ∈ poolOf (lruSelect s now t rm sid false ff).1 t, c.lastUsed.getD 0 ≤ now) := by
  have hpools1 : (lruStickyBind s now t sid ff sel.uuid).pools = s.pools := by
    unfold lruStickyBind
    cases sid with
    | none => rfl
    | some sid' =>
      show (if s.stickyEnabled = true ∧ ¬ ff = true then
          createStickySession s now sid' t sel.uuid
        else s).pools = s.pools
      by_cases hc : s.stickyEnabled = true ∧ ¬ ff = true
      · rw [if_pos hc]
        unfold createStickySession
        have hev : ∀ n (x : PoolState), (evictOldestSessions x n).pools = x.pools := by
          intro n
          induction n with
          | zero => intro x; rfl
          | succ k ih =>
            intro x
            show (evictOldestSessions (evictOnce x) k).pools = x.pools
            rw [ih (evictOnce x)]
            unfold evictOnce
            cases firstMinByAccess x.stickyMap
            · rfl
            · rfl
        have hset : ∀ (x : PoolState) sid2 sess, (stickySet x sid2 sess).pools = x.pools := by
          intro x sid2 sess
          unfold stickySet
          split <;> rfl
        split
        · rw [hset, hev]
        · rw [hset]
      · rw [if_neg hc]
  unfold lruSelect
  simp only [hpick]
  refine ⟨rfl, ?_⟩
  intro c hc
  simp only [Bool.false_eq_true, if_false] at hc
  have hpool1 : hasPool (lruStickyBind s now t sid ff sel.uuid) t = true := by
    unfold hasPool
    rw [hpools1]
    exact hpool
  have hpo : poolOf (debouncedSave (setCredAt (lruStickyBind s now t sid ff sel.uuid) t i
      { sel with lastUsed := some now, usageCount := sel.usageCount + 1 }) t) t =
      ((poolOf (lruStickyBind s now t sid ff sel.uuid) t).set i
        { sel with lastUsed := some now, usageCount := sel.usageCount + 1 }) := by
    show poolOf (setCredAt (lruStickyBind s now t sid ff sel.uuid) t i
      { sel with lastUsed := some now, usageCount := sel.usageCount + 1 }) t = _
    unfold setCredAt
    exact poolOf_setPool hpool1
  rw [hpo] at hc
  rcases List.mem_or_eq_of_mem_set hc with hc | rfl
  · rw [poolOf_congr hpools1] at hc
    exact h3 c hc
  · simp

theorem hasPool_of_pool_ne {s : PoolState} {t : String}
    (h : poolOf s t ≠ []) : hasPool s t = true := by
  unfold poolOf at h
  unfold hasPool
  cases hf : s.pools.find? (fun p => p.1 = t) with
  | none => rw [hf] at h; exact absurd rfl h
  | some p => rfl

/-- C3: on a `selectProvider` call that does not take the sticky-session path
(the sticky lookup, if attempted at all, yields no hit) and with
`skipUsageCount` false, if the set of healthy, non-disabled candidates
supporting the requested model is non-empty, the returned credential is an
element of that set, is minimal under the key `(lastUsed with null as 0,
usageCount)`, and — assuming the clock is monotone, i.e. `now` is at least the
`lastUsed` of every pool member — after the call its `lastUsed` (namely `now`)
is ≥ the `lastUsed` of every credential in the pool. -/
theorem c3_lru_selection (s : PoolState) (now : Nat) (t : String) (rm : Option String)
    (sid : Option String) (ff : Bool)
    (ht : ¬ t = "")
    (hns : ∀ sd, (if s.stickyEnabled then sid else none) = some sd →
      (trySelectFromStickySession s now t rm sd).2 = none)
    (hne : lruCandidates s t rm ≠ [])
    (hclock : ∀ c ∈ poolOf s t, c.lastUsed.getD 0 ≤ now) :
    ∃ i sel, (i, sel) ∈ lruCandidates s t rm ∧
      (∀ e ∈ lruCandidates s t rm, ¬ keyLt (credKey e.2) (credKey sel) = true) ∧
      (selectProvider s now t rm sid false ff).2 =
        some { sel with lastUsed := some now, usageCount := sel.usageCount + 1 } ∧
      (∀ c ∈ poolOf (selectProvider s now t rm sid false ff).1 t,
        c.lastUsed.getD 0 ≤ now) := by
  have hpool : hasPool s t = true := by
    apply hasPool_of_pool_ne
    intro hempty
    apply hne
    unfold lruCandidates
    rw [hempty]
    rfl
  obtain ⟨e, hpick⟩ := Option.isSome_iff_exists.mp (pickFirstMin_isSome hne)
  obtain ⟨i, sel⟩ := e
  have hmin : ∀ x ∈ lruCandidates s t rm, ¬ keyLt (credKey x.2) (credKey sel) = true :=
    (foldl_pickStep_min (lruCandidates s t rm) none (i, sel) hpick).1
  have hmain : (selectProvider s now t rm sid false ff).2 =
      some { sel with lastUsed := some now, usageCount := sel.usageCount + 1 } ∧
      (∀ c ∈ poolOf (selectProvider s now t rm sid false ff).1 t,
        c.lastUsed.getD 0 ≤ now) := by
    cases hm : (if s.stickyEnabled then sid else none) with
    | none =>
      have heq : selectProvider s now t rm sid false ff =
          lruSelect s now t rm sid false ff := by
        unfold selectProvider
        rw [if_neg ht, hm]
      rw [heq]
      exact lruSelect_spec now t rm sid ff hpick hpool hclock
    | some sd =>
      have hnone := hns sd hm
      have heq : selectProvider s now t rm sid false ff =
          lruSelect (trySelectFromStickySession s now t rm sd).1 now t rm sid false ff := by
        unfold selectProvider
        rw [if_neg ht, hm]
        simp only [hnone]
      have hframe : (trySelectFromStickySession s now t rm sd).1.pools = s.pools :=
        ((trySelect_spec s now t rm sd).1).1
      have hpick1 :
          pickFirstMin (lruCandidates (trySelectFromStickySession s now t rm sd).1 t rm) =
            some (i, sel) := by
        rw [lruCandidates_congr hframe]
        exact hpick
      have hpool1 : hasPool (trySelectFromStickySession s now t rm sd).1 t = true := by
        unfold hasPool
        rw [hframe]
        exact hpool
      have hclock1 : ∀ c ∈ poolOf (trySelectFromStickySession s now t rm sd).1 t,
          c.lastUsed.getD 0 ≤ now := by
        rw [poolOf_congr hframe]
        exact hclock
      rw [heq]
      exact lruSelect_spec now t rm sid ff hpick1 hpool1 hclock1
  exact ⟨i, sel, pickFirstMin_mem hpick, hmin, hmain.1, hmain.2⟩

theorem c3_lru_selection_witness :
    (¬ "claude-kiro-oauth" = "") ∧
    lruCandidates poolState1 "claude-kiro-oauth" none ≠ [] ∧
    (∃ i sel, (i, sel) ∈ lruCandidates poolState1 "claude-kiro-oauth" none ∧
      (∀ e ∈ lruCandidates poolState1 "claude-kiro-oauth" none,
        ¬ keyLt (credKey e.2) (credKey sel) = true) ∧
      (selectProvider poolState1 5 "claude-kiro-oauth" none none false false).2 =
        some { sel with lastUsed := some 5, usageCount := sel.usageCount + 1 } ∧
      (∀ c ∈ poolOf (selectProvider poolState1 5 "claude-kiro-oauth" none none false false).1
          "claude-kiro-oauth", c.lastUsed.getD 0 ≤ 5)) :=
  ⟨by decide, by decide,
   c3_lru_selection poolState1 5 "claude-kiro-oauth" none none false
     (by decide) (by intro sd h; simp [poolState1] at h) (by decide) (by decide)⟩

/-! ## C1/C4: the estimator's token split -/

/-- `staticCacheable + prefixMessagesTokens` as `estimateCacheTokens` computes
it (step 6 of the source): the total cacheable token count of a request. -/
def totalCacheableTokensOf (cfg : EstConfig) (tok : String → Nat) (md5 : String → String)
    (req : KiroRequest) : Nat :=
  let cc := extractCacheableContent cfg.toolResultStrategy tok md5 req
  (if cc.staticPart.systemHasCacheControl ∨ cc.staticPart.toolsHasCacheControl then
    countStaticPrefixTokens tok cc
  else 0) + cc.prefixMessagesTokens

theorem sum_take_getD (l : List Nat) :
    ∀ n, ((List.range n).map (fun i => l.getD i 0)).sum = (l.take n).sum := by
  intro n
  induction n with
  | zero => simp
  | succ k ih =>
    rw [List.range_succ, List.map_append, List.sum_append, ih, List.take_succ]
    cases h : l[k]? with
    | none => simp [List.getD_eq_getElem?_getD, h]
    | some a => simp [List.getD_eq_getElem?_getD, h]

theorem optimisticSplit_sum :
    ∀ (prevs curs : List CachedMsg),
      (optimisticSplit prevs curs).1 + (optimisticSplit prevs curs).2 =
        (curs.map (fun m => m.tokens)).sum := by
  intro prevs curs
  induction curs generalizing prevs with
  | nil => cases prevs <;> simp [optimisticSplit]
  | cons cur curs ih =>
    cases prevs with
    | nil =>
      simp only [optimisticSplit, List.map_cons, List.sum_cons]
      have := ih []
      omega
    | cons prev prevs =>
      simp only [optimisticSplit, List.map_cons, List.sum_cons]
      have := ih prevs
      split <;> simp only [] <;> omega

theorem strictMatchedCount_le :
    ∀ (prevs curs : List CachedMsg), strictMatchedCount prevs curs ≤ curs.length := by
  intro prevs curs
  induction curs generalizing prevs with
  | nil => cases prevs <;> simp [strictMatchedCount]
  | cons cur curs ih =>
    cases prevs with
    | nil => simp [strictMatchedCount]
    | cons prev prevs =>
      simp only [strictMatchedCount, List.length_cons]
      have := ih prevs
      split <;> omega

theorem extractCC_prefixTokens (strategy : String) (tok : String → Nat)
    (md5 : String → String) (req : KiroRequest) :
    (extractCacheableContent strategy tok md5 req).prefixMessagesTokens =
      (if 0 ≤ (extractCacheableContent strategy tok md5 req).lastCacheBreakpoint then
        ((extractCacheableContent strategy tok md5 req).allMessagesTokens.take
          ((extractCacheableContent strategy tok md5 req).lastCacheBreakpoint.toNat + 1)).sum
      else 0) := by
  simp only [extractCacheableContent]

theorem extractCC_cached_tokens_sum (strategy : String) (tok : String → Nat)
    (md5 : String → String) (req : KiroRequest) :
    ((extractCacheableContent strategy tok md5 req).cachedMessages.map
      (fun m => m.tokens)).sum =
      (extractCacheableContent strategy tok md5 req).prefixMessagesTokens := by
  simp only [extractCacheableContent]
  split
  · split
    · rw [List.map_map]
      exact sum_take_getD _ _
    · simp
  · simp

theorem extractCC_cached_nil_iff (strategy : String) (tok : String → Nat)
    (md5 : String → String) (req : KiroRequest) :
    (extractCacheableContent strategy tok md5 req).cachedMessages = [] ↔
      (extractCacheableContent strategy tok md5 req).lastCacheBreakpoint < 0 := by
  simp only [extractCacheableContent]
  split
  · split
    · next h =>
      constructor
      · intro hnil
        simp [List.range_succ] at hnil
      · intro hlt
        omega
    · next h =>
      exact ⟨fun _ => by omega, fun _ => rfl⟩
  · simp

theorem extractCC_cached_length (strategy : String) (tok : String → Nat)
    (md5 : String → String) (req : KiroRequest)
    (h : 0 ≤ (extractCacheableContent strategy tok md5 req).lastCacheBreakpoint) :
    (extractCacheableContent strategy tok md5 req).cachedMessages.length =
      (extractCacheableContent strategy tok md5 req).lastCacheBreakpoint.toNat + 1 := by
  simp only [extractCacheableContent] at h ⊢
  revert h
  split
  · intro h
    rw [if_pos h]
    simp
  · intro h
    exact absurd h (by decide)

theorem strict_partial_sum (A : List Nat) (K : Nat) (m : Nat) (hmK : m ≤ K) :
    (if (0:Int) ≤ (m:Int) - 1 then (A.take (((m:Int) - 1 + 1).toNat)).sum else 0) +
      ((A.take K).drop (((m:Int) - 1 + 1).toNat)).sum = (A.take K).sum := by
  have h1 : ((m:Int) - 1 + 1).toNat = m := by omega
  rw [h1]
  by_cases h : (0:Int) ≤ (m:Int) - 1
  · rw [if_pos h]
    have h2 : (A.take m).sum = ((A.take K).take m).sum := by
      rw [List.take_take, min_eq_left hmK]
    rw [h2, List.sum_take_add_sum_drop]
  · rw [if_neg h]
    have hm0 : m = 0 := by omega
    subst hm0
    simp

theorem estimateCacheTokens_cacheable_split (cfg : EstConfig) (tok : String → Nat)
    (md5 : String → String) (st : LRUCache) (now : Nat) (req : KiroRequest)
    (total : Nat) (model : String)
    (hen : cfg.enabled = true)
    (hcc : (extractCacheableContent cfg.toolResultStrategy tok md5 req).hasCacheControl = true)
    (hmin : cfg.minCacheableTokens ≤ totalCacheableTokensOf cfg tok md5 req) :
    (estimateCacheTokens cfg tok md5 st now req total model).1.cache_read_input_tokens +
      (estimateCacheTokens cfg tok md5 st now req total model).1.cache_creation_input_tokens =
      totalCacheableTokensOf cfg tok md5 req ∧
    (estimateCacheTokens cfg tok md5 st now req total model).1.uncached_input_tokens =
      total - totalCacheableTokensOf cfg tok md5 req := by
  have hmin2 := Nat.not_lt.mpr hmin
  simp only [totalCacheableTokensOf] at hmin2
  unfold estimateCacheTokens
  rw [if_neg (show ¬ ¬ cfg.enabled = true from by simp [hen])]
  simp only []
  rw [if_neg (show ¬ ¬ (extractCacheableContent cfg.toolResultStrategy tok md5 req).hasCacheControl = true from by simp [hcc])]
  rw [if_neg hmin2]
  split
  · -- the cache-hit arm
    next item heq =>
    constructor
    · simp only [totalCacheableTokensOf]
      by_cases hopt : cfg.optimistic = true
      · rw [if_pos hopt]
        simp only []
        have hsum := optimisticSplit_sum item.value.cachedMessages
          (extractCacheableContent cfg.toolResultStrategy tok md5 req).cachedMessages
        have hF1 := extractCC_cached_tokens_sum cfg.toolResultStrategy tok md5 req
        omega
      · rw [if_neg hopt]
        by_cases hcur :
            (extractCacheableContent cfg.toolResultStrategy tok md5 req).cachedMessages.length = 0
        · rw [if_pos hcur]
          simp only []
          have hnil := List.length_eq_zero.mp hcur
          have hlt := (extractCC_cached_nil_iff cfg.toolResultStrategy tok md5 req).mp hnil
          have hpm := extractCC_prefixTokens cfg.toolResultStrategy tok md5 req
          rw [if_neg (by omega)] at hpm
          omega
        · rw [if_neg hcur]
          have hpos : 0 ≤ (extractCacheableContent cfg.toolResultStrategy tok md5 req).lastCacheBreakpoint := by
            by_contra hneg
            exact hcur (by
              rw [(extractCC_cached_nil_iff cfg.toolResultStrategy tok md5 req).mpr (by omega)]
              rfl)
          have hlen := extractCC_cached_length cfg.toolResultStrategy tok md5 req hpos
          have hpm := extractCC_prefixTokens cfg.toolResultStrategy tok md5 req
          rw [if_pos hpos] at hpm
          have hk1 : ((extractCacheableContent cfg.toolResultStrategy tok md5 req).lastCacheBreakpoint + 1).toNat =
              (extractCacheableContent cfg.toolResultStrategy tok md5 req).lastCacheBreakpoint.toNat + 1 := by
            omega
          by_cases hm : strictMatchedCount item.value.cachedMessages
              (extractCacheableContent cfg.toolResultStrategy tok md5 req).cachedMessages =
              (extractCacheableContent cfg.toolResultStrategy tok md5 req).cachedMessages.length
          · rw [if_pos hm]
            simp only []
            rw [hk1]
            omega
          · rw [if_neg hm]
            simp only []
            rw [hk1]
            have hle := strictMatchedCount_le item.value.cachedMessages
              (extractCacheableContent cfg.toolResultStrategy tok md5 req).cachedMessages
            have hps := strict_partial_sum
              (extractCacheableContent cfg.toolResultStrategy tok md5 req).allMessagesTokens
              ((extractCacheableContent cfg.toolResultStrategy tok md5 req).lastCacheBreakpoint.toNat + 1)
              (strictMatchedCount item.value.cachedMessages
                (extractCacheableContent cfg.toolResultStrategy tok md5 req).cachedMessages)
              (by omega)
            omega
    · simp only [totalCacheableTokensOf]
  · -- the cache-creation arm
    next heq =>
    constructor
    · simp only [totalCacheableTokensOf]
      omega
    · simp only [totalCacheableTokensOf]

theorem estimateCacheTokens_disabled (cfg : EstConfig) (tok : String → Nat)
    (md5 : String → String) (st : LRUCache) (now : Nat) (req : KiroRequest)
    (total : Nat) (model : String) (hen : cfg.enabled = false) :
    estimateCacheTokens cfg tok md5 st now req total model =
      ({ cache_read_input_tokens := 0, cache_creation_input_tokens := 0,
         uncached_input_tokens := total, source := "disabled" }, st) := by
  unfold estimateCacheTokens
  rw [if_pos (by simp [hen])]

theorem estimateCacheTokens_no_cc (cfg : EstConfig) (tok : String → Nat)
    (md5 : String → String) (st : LRUCache) (now : Nat) (req : KiroRequest)
    (total : Nat) (model : String) (hen : cfg.enabled = true)
    (hcc : (extractCacheableContent cfg.toolResultStrategy tok md5 req).hasCacheControl = false) :
    estimateCacheTokens cfg tok md5 st now req total model =
      ({ cache_read_input_tokens := 0, cache_creation_input_tokens := 0,
         uncached_input_tokens := total, source := "no_cache_control" }, st) := by
  unfold estimateCacheTokens
  rw [if_neg (show ¬ ¬ cfg.enabled = true from by simp [hen])]
  simp only []
  rw [if_pos (show ¬ (extractCacheableContent cfg.toolResultStrategy tok md5 req).hasCacheControl = true from by simp [hcc])]

theorem estimateCacheTokens_below (cfg : EstConfig) (tok : String → Nat)
    (md5 : String → String) (st : LRUCache) (now : Nat) (req : KiroRequest)
    (total : Nat) (model : String) (hen : cfg.enabled = true)
    (hcc : (extractCacheableContent cfg.toolResultStrategy tok md5 req).hasCacheControl = true)
    (hlt : totalCacheableTokensOf cfg tok md5 req < cfg.minCacheableTokens) :
    estimateCacheTokens cfg tok md5 st now req total model =
      ({ cache_read_input_tokens := 0, cache_creation_input_tokens := 0,
         uncached_input_tokens := total, source := "below_threshold" }, st) := by
  simp only [totalCacheableTokensOf] at hlt
  unfold estimateCacheTokens
  rw [if_neg (show ¬ ¬ cfg.enabled = true from by simp [hen])]
  simp only []
  rw [if_neg (show ¬ ¬ (extractCacheableContent cfg.toolResultStrategy tok md5 req).hasCacheControl = true from by simp [hcc])]
  rw [if_pos hlt]

/-- C1: the three returned fields of `estimateCacheTokens` are non-negative by
construction (they are ℕ token counts; the source clamps `uncached` with
`Math.max(0, …)`, embedded as ℕ subtraction), but their sum equals
`totalInputTokens` only on the non-cacheable paths: on the cacheable paths
(enabled, a `cache_control` present, and the cacheable tokens at least
`minCacheableTokens`) the sum is `max totalInputTokens totalCacheableTokens`,
which exceeds `totalInputTokens` whenever the estimator's own count of the
cacheable content exceeds the independently supplied total. -/
theorem c1_token_split_sum (cfg : EstConfig) (tok : String → Nat) (md5 : String → String)
    (st : LRUCache) (now : Nat) (req : KiroRequest) (total : Nat) (model : String) :
    (estimateCacheTokens cfg tok md5 st now req total model).1.cache_read_input_tokens +
      (estimateCacheTokens cfg tok md5 st now req total model).1.cache_creation_input_tokens +
      (estimateCacheTokens cfg tok md5 st now req total model).1.uncached_input_tokens =
      (if cfg.enabled = true ∧
          (extractCacheableContent cfg.toolResultStrategy tok md5 req).hasCacheControl = true ∧
          cfg.minCacheableTokens ≤ totalCacheableTokensOf cfg tok md5 req then
        max total (totalCacheableTokensOf cfg tok md5 req)
      else total) := by
  by_cases hen : cfg.enabled = true
  · by_cases hcc : (extractCacheableContent cfg.toolResultStrategy tok md5 req).hasCacheControl = true
    · by_cases hmin : cfg.minCacheableTokens ≤ totalCacheableTokensOf cfg tok md5 req
      · rw [if_pos ⟨hen, hcc, hmin⟩]
        obtain ⟨h1, h2⟩ :=
          estimateCacheTokens_cacheable_split cfg tok md5 st now req total model hen hcc hmin
        omega
      · rw [if_neg (fun h => hmin h.2.2)]
        rw [estimateCacheTokens_below cfg tok md5 st now req total model hen hcc
          (Nat.lt_of_not_le hmin)]
        simp
    · rw [if_neg (fun h => hcc h.2.1)]
      rw [estimateCacheTokens_no_cc cfg tok md5 st now req total model hen (by simpa using hcc)]
      simp
  · rw [if_neg (fun h => hen h.1)]
    rw [estimateCacheTokens_disabled cfg tok md5 st now req total model (by simpa using hen)]
    simp

/-- A request whose system prompt carries a `cache_control` marker, with no
messages: the system prompt is cacheable, nothing else follows it. -/
def ccSystemReq : KiroRequest :=
  { system := JVal.arr [JVal.blk (some "text") (some "You are a helpful assistant.")
      none none none none none (some "ephemeral") JVal.jsNull ""],
    tools := [], messages := [], toolChoice := none, thinking := none }

/-- An empty per-account request cache. -/
def emptyReqCache : LRUCache := { maxSize := 100, ttl := 600000, entries := [] }

/-- A tokenizer reporting 2048 tokens for every non-empty text — standing in
for the external `@anthropic-ai/tokenizer` on a system prompt of a few
thousand words (the estimator treats the tokenizer as a black box). -/
def tok2048 : String → Nat := fun _ => 2048

/-- C1 counterexample: on this request the split is taken from the
`cache_creation` path with `totalCacheableTokens = 2048`, while the supplied
`totalInputTokens` is `0`; the three returned fields sum to `2048 ≠ 0`. -/
theorem c1_counterexample :
    (estimateCacheTokens (defaultEstConfig true) tok2048 (fun _ => "h")
        emptyReqCache 0 ccSystemReq 0 "claude-sonnet-4-5").1.cache_read_input_tokens +
      (estimateCacheTokens (defaultEstConfig true) tok2048 (fun _ => "h")
        emptyReqCache 0 ccSystemReq 0 "claude-sonnet-4-5").1.cache_creation_input_tokens +
      (estimateCacheTokens (defaultEstConfig true) tok2048 (fun _ => "h")
        emptyReqCache 0 ccSystemReq 0 "claude-sonnet-4-5").1.uncached_input_tokens ≠ 0 := by
  decide

theorem estimateCacheTokens_cacheable_source (cfg : EstConfig) (tok : String → Nat)
    (md5 : String → String) (st : LRUCache) (now : Nat) (req : KiroRequest)
    (total : Nat) (model : String)
    (hen : cfg.enabled = true)
    (hcc : (extractCacheableContent cfg.toolResultStrategy tok md5 req).hasCacheControl = true)
    (hmin : cfg.minCacheableTokens ≤ totalCacheableTokensOf cfg tok md5 req) :
    (estimateCacheTokens cfg tok md5 st now req total model).1.source = "cache_creation" ∨
    (estimateCacheTokens cfg tok md5 st now req total model).1.source = "cache_hit" ∨
    (estimateCacheTokens cfg tok md5 st now req total model).1.source = "cache_hit_partial" := by
  have hmin2 := Nat.not_lt.mpr hmin
  simp only [totalCacheableTokensOf] at hmin2
  unfold estimateCacheTokens
  rw [if_neg (show ¬ ¬ cfg.enabled = true from by simp [hen])]
  simp only []
  rw [if_neg (show ¬ ¬ (extractCacheableContent cfg.toolResultStrategy tok md5 req).hasCacheControl = true from by simp [hcc])]
  rw [if_neg hmin2]
  split
  · next item heq =>
    simp only []
    repeat' split
    all_goals simp
  · next heq =>
    left
    rfl

/-- C4: with the configuration `getCacheEstimatorForAccount` actually builds
(`new KiroCacheEstimator({})`, so every `CACHE_ESTIMATION_CONFIG` default,
in particular `minCacheableTokens = 1024`), the below-threshold cutoff is the
uniform 1024 for every model: below it the whole total is reported uncached
and the request cache is left untouched; at or above it the estimator proceeds
to history matching (a `cache_creation` or `cache_hit*` result).  The
model-specific table of `getMinCacheTokens` plays no part: that function is
never called. -/
theorem c4_threshold_uniform (opt : Bool) (tok : String → Nat) (md5 : String → String)
    (st : LRUCache) (now : Nat) (req : KiroRequest) (total : Nat) (model : String)
    (hcc : (extractCacheableContent (defaultEstConfig opt).toolResultStrategy tok md5
      req).hasCacheControl = true) :
    (totalCacheableTokensOf (defaultEstConfig opt) tok md5 req < 1024 →
      estimateCacheTokens (defaultEstConfig opt) tok md5 st now req total model =
        ({ cache_read_input_tokens := 0, cache_creation_input_tokens := 0,
           uncached_input_tokens := total, source := "below_threshold" }, st)) ∧
    (1024 ≤ totalCacheableTokensOf (defaultEstConfig opt) tok md5 req →
      ((estimateCacheTokens (defaultEstConfig opt) tok md5 st now req total model).1.source =
          "cache_creation" ∨
       (estimateCacheTokens (defaultEstConfig opt) tok md5 st now req total model).1.source =
          "cache_hit" ∨
       (estimateCacheTokens (defaultEstConfig opt) tok md5 st now req total model).1.source =
          "cache_hit_partial")) := by
  constructor
  · intro hlt
    exact estimateCacheTokens_below (defaultEstConfig opt) tok md5 st now req total model
      rfl hcc hlt
  · intro hge
    exact estimateCacheTokens_cacheable_source (defaultEstConfig opt) tok md5 st now req
      total model rfl hcc hge

theorem c4_threshold_uniform_witness :
    ((extractCacheableContent (defaultEstConfig true).toolResultStrategy (fun _ => 10)
        (fun _ => "h") ccSystemReq).hasCacheControl = true) ∧
    ((totalCacheableTokensOf (defaultEstConfig true) (fun _ => 10) (fun _ => "h")
        ccSystemReq < 1024 →
      estimateCacheTokens (defaultEstConfig true) (fun _ => 10) (fun _ => "h")
          emptyReqCache 0 ccSystemReq 50 "claude-opus-4-5" =
        ({ cache_read_input_tokens := 0, cache_creation_input_tokens := 0,
           uncached_input_tokens := 50, source := "below_threshold" }, emptyReqCache)) ∧
    (1024 ≤ totalCacheableTokensOf (defaultEstConfig true) (fun _ => 10) (fun _ => "h")
        ccSystemReq →
      ((estimateCacheTokens (defaultEstConfig true) (fun _ => 10) (fun _ => "h")
          emptyReqCache 0 ccSystemReq 50 "claude-opus-4-5").1.source = "cache_creation" ∨
       (estimateCacheTokens (defaultEstConfig true) (fun _ => 10) (fun _ => "h")
          emptyReqCache 0 ccSystemReq 50 "claude-opus-4-5").1.source = "cache_hit" ∨
       (estimateCacheTokens (defaultEstConfig true) (fun _ => 10) (fun _ => "h")
          emptyReqCache 0 ccSystemReq 50 "claude-opus-4-5").1.source =
          "cache_hit_partial"))) :=
  ⟨by decide,
   c4_threshold_uniform true (fun _ => 10) (fun _ => "h") emptyReqCache 0 ccSystemReq 50
     "claude-opus-4-5" (by decide)⟩

/-- C4 counterexample: for `claude-opus-4-5` the table of `getMinCacheTokens`
says 4096, yet a request with 2048 cacheable tokens (below that model-specific
minimum, above the uniform 1024) is not reported as all-uncached: the
estimator proceeds and returns a `cache_creation` split with 2048 creation
tokens. -/
theorem c4_counterexample :
    getMinCacheTokens "claude-opus-4-5" = 4096 ∧
    1024 ≤ totalCacheableTokensOf (defaultEstConfig true) tok2048 (fun _ => "h") ccSystemReq ∧
    totalCacheableTokensOf (defaultEstConfig true) tok2048 (fun _ => "h") ccSystemReq < 4096 ∧
    (estimateCacheTokens (defaultEstConfig true) tok2048 (fun _ => "h") emptyReqCache 0
        ccSystemReq 5000 "claude-opus-4-5").1.source = "cache_creation" ∧
    (estimateCacheTokens (defaultEstConfig true) tok2048 (fun _ => "h") emptyReqCache 0
        ccSystemReq 5000 "claude-opus-4-5").1.cache_creation_input_tokens ≠ 0 := by
  refine ⟨?_, ?_, ?_, ?_, ?_⟩ <;> decide
